import Mathlib

/-!
Verification development for the forensic-artifacts module
(`rekall/plugins/response/forensic_artifacts.py`).

The Python module is shallowly embedded: raw YAML-derived data becomes the
`Value` type, raw mappings become association lists (`RawDict`), exceptions
become `Except`/`Option` error values, and the lazy generator pipeline of the
collector becomes an eager, fuel-indexed function returning the produced rows
together with the final visited set and an optional terminating error.
-/

set_option maxRecDepth 4000

/-- Python-level values as they appear in deserialized artifact definitions
and in result rows.  `vnone` models Python `None` (the result of `dict.get`
on an absent key, among others). -/
inductive Value where
  | vnone
  | vstr (s : String)
  | vint (n : Int)
  | vlist (l : List Value)
  | vdict (d : List (String × Value))

/-- A raw mapping (Python `dict` with string keys). -/
abbrev RawDict := List (String × Value)

/-- First binding for a key, `None`-free form (`name in data` / `data[name]`). -/
def RawDict.find (d : RawDict) (k : String) : Option Value :=
  match d with
  | [] => none
  | (k', v) :: rest => if k' = k then some v else RawDict.find rest k

/-- Python `data.get(name)`: absent keys give `None`. -/
def RawDict.get (d : RawDict) (k : String) : Value :=
  match RawDict.find d k with
  | some v => v
  | none => .vnone

/-- Python `data.get(name, default)`. -/
def RawDict.getD (d : RawDict) (k : String) (dflt : Value) : Value :=
  match RawDict.find d k with
  | some v => v
  | none => dflt

/-- Dict assignment `m[k] = v`: replace the binding if the key exists,
otherwise append it. -/
def setKey {α : Type} : List (String × α) → String → α → List (String × α)
  | [], k, v => [(k, v)]
  | (k', v') :: rest, k, v =>
    if k' = k then (k, v) :: rest else (k', v') :: setKey rest k v

/-- The semantic type tags used by `_field_definitions` entries.  `str` and
`unicode` are both collapsed to `basestring` by the validator (lines 75-76),
so a single string-like tag `tstr` suffices.  `tnone` is the type of `None`
and is never a declared field type. -/
inductive Ty where
  | tstr
  | tint
  | tlist
  | tdict
  | tnone
deriving DecidableEq

/-- Python `v == s` for a string literal `s`: only equal when `v` is that
string.  Used for the `in` membership tests the module performs on
`supported_os` lists and similar string collections. -/
def Value.eqStr (v : Value) (s : String) : Bool :=
  match v with
  | .vstr t => t = s
  | _ => false

/-- Python `s in l` where `l` is a list of values and `s` a string. -/
def strIn (s : String) (l : List Value) : Bool :=
  l.any (fun v => v.eqStr s)

/-- Python `v is None`. -/
def Value.isNone : Value → Bool
  | .vnone => true
  | _ => false

/-- The zero value `required_type()` of a type (`basestring` cannot be
instantiated, so the validator special-cases it to the empty string). -/
def Ty.zero : Ty → Value
  | .tstr => .vstr ""
  | .tint => .vint 0
  | .tlist => .vlist []
  | .tdict => .vdict []
  | .tnone => .vnone

/-- Python `type(v)`. -/
def Value.typeOf : Value → Ty
  | .vnone => .tnone
  | .vstr _ => .tstr
  | .vint _ => .tint
  | .vlist _ => .tlist
  | .vdict _ => .tdict

/-- Python `isinstance(v, t)` for the types that occur in field definitions. -/
def Value.isinstance (v : Value) (t : Ty) : Bool :=
  v.typeOf = t

/-- Structured stand-in for `errors.FormatError` (and for the other Python
exceptions that `ArtifactDefinition.__init__` wraps into a `FormatError`).
Each constructor corresponds to one distinct raise site / message shape in
the module. -/
inductive FormatError where
  /-- "Missing fields {name}." (line 90) -/
  | missingField (name : String)
  /-- "field {name} has type ... should be ..." (line 95) -/
  | typeMismatch (name : String)
  /-- "Field definition should have both name and type." (line 145) -/
  | fieldDefMissingNameOrType
  /-- "Unsupported type %s." (line 150) -/
  | unsupportedType (t : Value)
  /-- "Source is not a dict." (line 259) -/
  | sourceNotDict
  /-- "Source has no type." (line 263) -/
  | sourceHasNoType
  /-- "No supported sources: %s" (line 273) -/
  | noSupportedSources (tags : List Value)
  /-- "No available sources." (line 277) -/
  | noAvailableSources
  /-- "supported operating system: {} not defined." (line 289) -/
  | undefinedSupportedOs (os : List Value)
  /-- "Artifact definition must be a dict." (line 323) -/
  | notADict
  /-- "Undefined keys: {}" (line 328) -/
  | undefinedKeys (keys : List String)
  /-- The wrapper "Definition %s: %s" added by `ArtifactDefinition.__init__`
  (line 318). -/
  | definitionError (name : String) (e : FormatError)
  /-- A Python `KeyError` escaping from dictionary access during loading
  (wrapped into `FormatError` by `ArtifactDefinition.__init__`). -/
  | keyError (k : String)
  /-- Any other Python-level error (e.g. iterating a non-iterable), likewise
  wrapped during definition loading. -/
  | typeError

/-- One entry of a `_field_definitions` table.  `checker` models the
cross-field checker functions; every checker in the module reads only the
raw input mapping, so it is embedded as a function of the mapping. -/
structure FieldSpec where
  name : String
  type : Option Ty := none
  default : Option Value := none
  optional : Bool := false
  checker : Option (RawDict → Except FormatError Value) := none

/-- Processing of a single field by
`_FieldDefinitionValidator._LoadFieldDefinitions` (lines 70-102): default
synthesis, type inference from the default, the required-field check, the
instance check and the checker override, in the source's order.  When the
instance check fails on a value that came from the default (the field being
absent from `data`), the error-message formatting `type(data[name])` itself
raises `KeyError`; both failures are load failures. -/
def loadField (field : FieldSpec) (data : RawDict) : Except FormatError Value :=
  let dflt : Option Value :=
    match field.default, field.type with
    | none, some t => some (if t = Ty.tstr then Value.vstr "" else t.zero)
    | d, _ => d
  let requiredType : Option Ty :=
    match field.type, dflt with
    | none, some d => some d.typeOf
    | t, _ => t
  if !field.optional && (RawDict.find data field.name).isNone then
    .error (.missingField field.name)
  else
    let value : Value :=
      match RawDict.find data field.name with
      | some v => v
      | none => match dflt with | some d => d | none => .vnone
    let checked : Except FormatError Value :=
      match dflt, requiredType with
      | some _, some rt =>
        if value.isinstance rt then .ok value
        else
          match RawDict.find data field.name with
          | some _ => .error (.typeMismatch field.name)
          | none => .error (.keyError field.name)
      | _, _ => .ok value
    match checked with
    | .error e => .error e
    | .ok v =>
      match field.checker with
      | some ch => ch data
      | none => .ok v

/-- The loop of `_LoadFieldDefinitions`, threading the attribute assignments
(`setattr`) made so far. -/
def loadFieldsGo (fields : List FieldSpec) (data : RawDict) (attrs : RawDict) :
    Except FormatError RawDict :=
  match fields with
  | [] => .ok attrs
  | f :: rest =>
    match loadField f data with
    | .error e => .error e
    | .ok v => loadFieldsGo rest data (setKey attrs f.name v)

/-- `_FieldDefinitionValidator._LoadFieldDefinitions`: validate `data`
against a field-definition table, producing the attribute assignments of the
validated object. -/
def _LoadFieldDefinitions (fields : List FieldSpec) (data : RawDict) :
    Except FormatError RawDict :=
  loadFieldsGo fields data []

/-- Whether an `Except` is a success. -/
def exceptIsOk {ε α : Type} : Except ε α → Bool
  | .ok _ => true
  | .error _ => false

/-- The enumerated platform set `definitions.SUPPORTED_OS` of the external
`artifacts` package (per the interface of §6: `Linux`, `Windows`, `Darwin`). -/
def SUPPORTED_OS : List String := ["Darwin", "Linux", "Windows"]

/-- `definitions.SUPPORTED_OS` as the value used for field defaults
(a collection of the three platform strings). -/
def SUPPORTED_OS_value : Value := .vlist (SUPPORTED_OS.map .vstr)

/-- The fixed label vocabulary `definitions.LABELS` of the external
`artifacts` package (only membership matters to this module). -/
def LABELS : List String :=
  ["Antivirus", "Authentication", "Browser", "Cloud", "Cloud Storage",
   "Configuration Files", "Execution", "External Media", "ExternalAccount",
   "Hadoop", "History Files", "KnowledgeBase", "Logs", "Mail", "Network",
   "Software", "System", "Users", "iOS"]

/-- The closed top-level key set `definitions.TOP_LEVEL_KEYS` (§6). -/
def TOP_LEVEL_KEYS : List String :=
  ["conditions", "doc", "labels", "name", "provides", "returned_types",
   "sources", "supported_os", "urls"]

/-- `TYPE_INDICATOR_REKALL` (line 58). -/
def TYPE_INDICATOR_REKALL : String := "REKALL_EFILTER"

/-- `definitions.TYPE_INDICATOR_FILE` of the external `artifacts` package. -/
def TYPE_INDICATOR_FILE : String := "FILE"

/-- `definitions.TYPE_INDICATOR_ARTIFACT_GROUP` of the external `artifacts`
package. -/
def TYPE_INDICATOR_ARTIFACT_GROUP : String := "ARTIFACT_GROUP"

/-- `ArtifactResult`: all results from one source invocation (lines 41-54). -/
structure ArtifactResult where
  artifact_name : String
  result_type : String
  fields : List Value
  results : List RawDict

/-- `ArtifactResult.add_result` (lines 49-51): append the row only when the
keyword mapping is non-empty (`if data:`). -/
def ArtifactResult.add_result (r : ArtifactResult) (data : RawDict) : ArtifactResult :=
  if data.isEmpty then r
  else { r with results := r.results ++ [data] }

/-- The variant-specific attributes of a constructed source object.  The
construction functions below guarantee the typed shapes recorded here. -/
inductive SourceVariant where
  /-- `RekallEFilterArtifacts`: query, query_parameters, fields, type_name. -/
  | efilter (query : String) (query_parameters : List Value)
      (fields : List Value) (type_name : String)
  /-- `FileSourceType`: paths, separator. -/
  | file (paths : List Value) (separator : String)
  /-- `ArtifactGroupSourceType`: names. -/
  | group (names : List Value)

/-- A constructed source: its `type_indicator`, validated variant attributes
and validated `supported_os` attribute.  `supported_os` entries are arbitrary
values: the source-level field definitions only demand a list. -/
structure SourceObj where
  type_indicator : String
  variant : SourceVariant
  supported_os : List Value

/-- `RekallEFilterArtifacts._field_definitions` (lines 132-139). -/
def RekallEFilterArtifacts.field_definitions : List FieldSpec :=
  [{ name := "query", type := some .tstr },
   { name := "query_parameters", default := some (.vlist []), optional := true },
   { name := "fields", type := some .tlist },
   { name := "type_name", type := some .tstr },
   { name := "supported_os", optional := true, default := some SUPPORTED_OS_value }]

/-- `FileSourceType._field_definitions` (lines 179-185). -/
def FileSourceType.field_definitions : List FieldSpec :=
  [{ name := "paths", default := some (.vlist []) },
   { name := "separator", default := some (.vstr "/"), type := some .tstr,
     optional := true },
   { name := "supported_os", optional := true, default := some SUPPORTED_OS_value }]

/-- `ArtifactGroupSourceType._field_definitions` (lines 218-222). -/
def ArtifactGroupSourceType.field_definitions : List FieldSpec :=
  [{ name := "names", type := some .tlist },
   { name := "supported_os", optional := true, default := some SUPPORTED_OS_value }]

/-- Extract a validated string attribute (the validator has already enforced
the string type wherever this is used; the fallback is unreachable there). -/
def attrStr (attrs : RawDict) (k : String) : String :=
  match RawDict.find attrs k with
  | some (.vstr s) => s
  | _ => ""

/-- Extract a validated list attribute (fallback unreachable on validated
attributes). -/
def attrList (attrs : RawDict) (k : String) : List Value :=
  match RawDict.find attrs k with
  | some (.vlist l) => l
  | _ => []

/-- `RekallEFilterArtifacts.allowed_types` keys (lines 124-130). -/
def allowed_type_tags : List String := ["int", "unicode", "str", "float", "any"]

/-- The column checks of `RekallEFilterArtifacts.__init__` (lines 143-151):
each column must carry both `name` and `type`, and the `type` tag must be one
of the allowed types.  A non-mapping column is modelled as the same
format-level failure. -/
def checkEfilterColumns : List Value → Except FormatError Unit
  | [] => .ok ()
  | column :: rest =>
    match column with
    | .vdict cd =>
      if (RawDict.find cd "name").isNone || (RawDict.find cd "type").isNone then
        .error .fieldDefMissingNameOrType
      else
        match RawDict.find cd "type" with
        | some (.vstr t) =>
          if allowed_type_tags.contains t then checkEfilterColumns rest
          else .error (.unsupportedType (.vstr t))
        | some v => .error (.unsupportedType v)
        | none => .error .fieldDefMissingNameOrType
    | _ => .error .fieldDefMissingNameOrType

/-- `SourceType.__init__` common step (lines 108-111): fetch the
`attributes` mapping of a raw source definition (`KeyError` when absent,
a load failure when it is not a mapping). -/
def sourceAttributes (source_definition : RawDict) : Except FormatError RawDict :=
  match RawDict.find source_definition "attributes" with
  | some (.vdict attributes) => .ok attributes
  | some _ => .error .typeError
  | none => .error (.keyError "attributes")

/-- Construction of a `RekallEFilterArtifacts` source from its raw
definition (lines 108-111 and 141-151). -/
def RekallEFilterArtifacts.make (source_definition : RawDict) :
    Except FormatError SourceObj :=
  match sourceAttributes source_definition with
  | .error e => .error e
  | .ok attributes =>
    match _LoadFieldDefinitions RekallEFilterArtifacts.field_definitions attributes with
    | .error e => .error e
    | .ok attrs =>
      match checkEfilterColumns (attrList attrs "fields") with
      | .error e => .error e
      | .ok _ =>
        .ok { type_indicator := TYPE_INDICATOR_REKALL,
              variant := .efilter (attrStr attrs "query")
                (attrList attrs "query_parameters")
                (attrList attrs "fields") (attrStr attrs "type_name"),
              supported_os := attrList attrs "supported_os" }

/-- Construction of a `FileSourceType` source (lines 108-111 and 178-185). -/
def FileSourceType.make (source_definition : RawDict) :
    Except FormatError SourceObj :=
  match sourceAttributes source_definition with
  | .error e => .error e
  | .ok attributes =>
    match _LoadFieldDefinitions FileSourceType.field_definitions attributes with
    | .error e => .error e
    | .ok attrs =>
      .ok { type_indicator := TYPE_INDICATOR_FILE,
            variant := .file (attrList attrs "paths") (attrStr attrs "separator"),
            supported_os := attrList attrs "supported_os" }

/-- Construction of an `ArtifactGroupSourceType` source (lines 108-111 and
217-222). -/
def ArtifactGroupSourceType.make (source_definition : RawDict) :
    Except FormatError SourceObj :=
  match sourceAttributes source_definition with
  | .error e => .error e
  | .ok attributes =>
    match _LoadFieldDefinitions ArtifactGroupSourceType.field_definitions attributes with
    | .error e => .error e
    | .ok attrs =>
      .ok { type_indicator := TYPE_INDICATOR_ARTIFACT_GROUP,
            variant := .group (attrList attrs "names"),
            supported_os := attrList attrs "supported_os" }

/-- The `SOURCE_TYPES.get(source_type_name)` lookup (lines 233-237 and
265): the constructor for a known source-type tag, `none` for a hashable
unrecognized tag; for an unhashable tag (a list or a dict) the dictionary
lookup itself raises `TypeError`, which aborts the definition load (wrapped
into a `FormatError` by `ArtifactDefinition.__init__`). -/
def sourceTypeFor (tag : Value) :
    Except FormatError (Option (RawDict → Except FormatError SourceObj)) :=
  match tag with
  | .vstr s =>
    if s = TYPE_INDICATOR_REKALL then .ok (some RekallEFilterArtifacts.make)
    else if s = TYPE_INDICATOR_FILE then .ok (some FileSourceType.make)
    else if s = TYPE_INDICATOR_ARTIFACT_GROUP then
      .ok (some ArtifactGroupSourceType.make)
    else .ok none
  | .vlist _ => .error .typeError
  | .vdict _ => .error .typeError
  | _ => .ok none

/-- The loop of `ArtifactDefinition.BuildSources` (lines 257-269): each
source entry must be a mapping; `source.get("type")` being `None` — the
`type` key absent or explicitly bound to `None` — aborts the load with the
no-type error (line 263); an unrecognized hashable tag is recorded and the
entry dropped; an unhashable tag and a construction failure of a recognized
entry abort the load. -/
def BuildSourcesList : List Value → Except FormatError (List SourceObj × List Value)
  | [] => .ok ([], [])
  | source :: rest =>
    match source with
    | .vdict sd =>
      let source_type_name := RawDict.get sd "type"
      if source_type_name.isNone then .error .sourceHasNoType
      else
        match sourceTypeFor source_type_name with
        | .error e => .error e
        | .ok (some make) =>
          match make sd with
          | .error e => .error e
          | .ok obj =>
            match BuildSourcesList rest with
            | .error e => .error e
            | .ok (objs, unsupported) => .ok (obj :: objs, unsupported)
        | .ok none =>
          match BuildSourcesList rest with
          | .error e => .error e
          | .ok (objs, unsupported) => .ok (objs, source_type_name :: unsupported)
    | _ => .error .sourceNotDict

/-- `ArtifactDefinition.BuildSources` (lines 253-279): build the source
objects from `art_definition["sources"]`; if none survive, fail with an
error that distinguishes all-unsupported from none-declared. -/
def BuildSources (art_definition : RawDict) :
    Except FormatError (List SourceObj × List Value) :=
  match RawDict.find art_definition "sources" with
  | none => .error (.keyError "sources")
  | some (.vlist sources) =>
    match BuildSourcesList sources with
    | .error e => .error e
    | .ok (result, unsupported) =>
      if result.isEmpty then
        if unsupported.isEmpty then .error .noAvailableSources
        else .error (.noSupportedSources unsupported)
      else .ok (result, unsupported)
  | some _ => .error .typeError

/-- `ArtifactDefinition.CheckLabels` (lines 243-251): the labels as given,
with those outside the fixed vocabulary kept and flagged. -/
def CheckLabels (art_definition : RawDict) : List Value × List Value :=
  let labels :=
    match RawDict.getD art_definition "labels" (.vlist []) with
    | .vlist l => l
    | _ => []
  (labels, labels.filter (fun v => !(LABELS.any (fun s => v.eqStr s))))

/-- `ArtifactDefinition.SupportedOS` (lines 281-294): default to the full
platform set; any entry outside it fails the definition load. -/
def SupportedOS (art_definition : RawDict) : Except FormatError (List String) :=
  match RawDict.getD art_definition "supported_os" SUPPORTED_OS_value with
  | .vlist supported_os =>
    let undefined := supported_os.filter
      (fun v => !(SUPPORTED_OS.any (fun s => v.eqStr s)))
    if undefined.isEmpty then
      .ok (supported_os.filterMap (fun v => match v with | .vstr s => some s | _ => none))
    else .error (.undefinedSupportedOs undefined)
  | v => .error (.undefinedSupportedOs [v])

/-- A loaded artifact definition (the validated object produced by
`ArtifactDefinition._LoadDefinition`). -/
structure ArtifactDefinition where
  name : String
  doc : String
  labels : List Value
  undefined_labels : List Value
  sources : List SourceObj
  unsupported_source_types : List Value
  supported_os : List String
  conditions : List Value
  returned_types : List Value
  provides : List Value
  urls : List Value

/-- A required string field of the definition table (`name`, `doc`): the
declared type `basestring` makes the validator synthesize the default `""`,
so a present value must be a string and an absent one is a missing required
field. -/
def requiredStrField (data : RawDict) (k : String) : Except FormatError String :=
  match RawDict.find data k with
  | some (.vstr s) => .ok s
  | some _ => .error (.typeMismatch k)
  | none => .error (.missingField k)

/-- A required list field of the definition table (`sources` has default
`[]` but no `optional` flag, so absence is still a missing-field error). -/
def requiredListField (data : RawDict) (k : String) : Except FormatError (List Value) :=
  match RawDict.find data k with
  | some (.vlist l) => .ok l
  | some _ => .error (.typeMismatch k)
  | none => .error (.missingField k)

/-- An optional list field of the definition table (`labels`, `conditions`,
`returned_types` via default `[]`; `provides`, `urls` via declared type
`list` with the synthesized default `[]`). -/
def optListField (data : RawDict) (k : String) : Except FormatError (List Value) :=
  match RawDict.find data k with
  | some (.vlist l) => .ok l
  | some _ => .error (.typeMismatch k)
  | none => .ok []

/-- `ArtifactDefinition._field_definitions` applied in declaration order
(lines 296-309), specialized from `_LoadFieldDefinitions`: `name` has
already been processed by the caller (it is the first field), then `doc`,
`labels` (checker `CheckLabels`), `sources` (checker `BuildSources`),
`supported_os` (checker `SupportedOS`), `conditions`, `returned_types`,
`provides` and `urls`. -/
def ArtifactDefinition.loadRest (nm : String) (data : RawDict) :
    Except FormatError ArtifactDefinition := do
  let doc ← requiredStrField data "doc"
  let _ ← optListField data "labels"
  let (labels, undefined_labels) := CheckLabels data
  let _ ← requiredListField data "sources"
  let (sources, unsupported_source_types) ← BuildSources data
  let supported_os ← SupportedOS data
  let conditions ← optListField data "conditions"
  let returned_types ← optListField data "returned_types"
  let provides ← optListField data "provides"
  let urls ← optListField data "urls"
  return { name := nm, doc, labels, undefined_labels, sources,
           unsupported_source_types, supported_os, conditions,
           returned_types, provides, urls }

/-- `ArtifactDefinition.__init__` plus `_LoadDefinition` (lines 313-331):
check that the raw definition is a mapping with no undefined top-level keys,
run the field definitions, and wrap any failure in the "Definition %s: %s"
error — using the validated name when the failure happens after the `name`
field was assigned, and the class default `"unknown"` otherwise. -/
def ArtifactDefinition.load (v : Value) : Except FormatError ArtifactDefinition :=
  match v with
  | .vdict data =>
    let different_keys := (data.map Prod.fst).filter
      (fun k => !(TOP_LEVEL_KEYS.contains k))
    if different_keys = [] then
      match requiredStrField data "name" with
      | .error e => .error (.definitionError "unknown" e)
      | .ok nm =>
        match ArtifactDefinition.loadRest nm data with
        | .error e => .error (.definitionError nm e)
        | .ok d => .ok d
    else .error (.definitionError "unknown" (.undefinedKeys different_keys))
  | _ => .error (.definitionError "unknown" .notADict)

/-- First binding for a key in a registry-style association list. -/
def lookupKey {α : Type} : List (String × α) → String → Option α
  | [], _ => none
  | (k', v) :: rest, k => if k' = k then some v else lookupKey rest k

/-- `ArtifactProfile`: the in-memory registry (lines 349-368). -/
structure ArtifactProfile where
  definitions : List ArtifactDefinition
  definitions_by_name : List (String × ArtifactDefinition)

/-- `ArtifactProfile.AddDefinition` (lines 358-362): construct the
definition from the raw mapping (propagating its `FormatError`), append it
and index it under the raw mapping's `name` entry. -/
def ArtifactProfile.AddDefinition (p : ArtifactProfile) (definition : Value) :
    Except FormatError ArtifactProfile :=
  match ArtifactDefinition.load definition with
  | .error e => .error e
  | .ok artifact =>
    match definition with
    | .vdict data =>
      match RawDict.find data "name" with
      | some (.vstr s) =>
        .ok { definitions := p.definitions ++ [artifact],
              definitions_by_name := setKey p.definitions_by_name s artifact }
      | _ => .error (.keyError "name")
    | _ => .error (.keyError "name")

/-- `ArtifactProfile.GetDefinitionByName` (lines 364-365): plain dictionary
lookup; `none` models the `KeyError` for an absent name. -/
def ArtifactProfile.GetDefinitionByName (p : ArtifactProfile) (name : String) :
    Option ArtifactDefinition :=
  lookupKey p.definitions_by_name name

/-- `ArtifactDefinitionProfileSectionLoader.LoadIntoProfile` (lines
338-346): add each raw definition, catching and logging a `FormatError` so
the failing definition is skipped and the rest still load. -/
def ArtifactDefinitionProfileSectionLoader.LoadIntoProfile
    (p : ArtifactProfile) (art_definitions : List Value) : ArtifactProfile :=
  art_definitions.foldl
    (fun profile definition =>
      match ArtifactProfile.AddDefinition profile definition with
      | .ok p' => p'
      | .error _ => profile)
    p

/-- Modelled from the spec: the file-information record produced by the
filesystem-glob capability (§6), which is implemented outside this module
(`session.plugins.glob` and `FileInformation` live elsewhere in the
repository).  Per the interface it exposes at least the seven descriptive
columns the file source reports. -/
structure FileInfo where
  st_mode : String
  st_nlink : Int
  st_uid : String
  st_gid : String
  st_size : Int
  st_mtime : String
  filename : String

/-- Modelled from the spec: the capability providers of §6 (query executor
and filesystem globber), implemented outside this module and injected
through the session. -/
structure Session where
  search : String → List Value → List RawDict
  glob : List Value → List FileInfo

/-- `FileSourceType._FIELDS` (lines 188-196). -/
def FileSourceType.FIELDS : List Value :=
  [.vdict [("name", .vstr "st_mode"), ("type", .vstr "unicode")],
   .vdict [("name", .vstr "st_nlink"), ("type", .vstr "int")],
   .vdict [("name", .vstr "st_uid"), ("type", .vstr "unicode")],
   .vdict [("name", .vstr "st_gid"), ("type", .vstr "unicode")],
   .vdict [("name", .vstr "st_size"), ("type", .vstr "int")],
   .vdict [("name", .vstr "st_mtime"), ("type", .vstr "unicode")],
   .vdict [("name", .vstr "filename"), ("type", .vstr "unicode")]]

/-- Python `unicode(v)` restricted to the values that occur in result rows
(collection values outside the claims' reach are approximated by `""`). -/
def asUnicode : Value → String
  | .vstr s => s
  | .vint n => toString n
  | .vnone => "None"
  | .vlist _ => ""
  | .vdict _ => ""

/-- `RekallEFilterArtifacts.allowed_types[type](value)` (lines 124-130,
170-171): coerce a column value to its declared semantic type.  `float` is
kept as-is and failing numeric conversions are approximated by zero; only
the presence and placement of coerced values matters to the claims. -/
def coerceValue (tag : String) (v : Value) : Value :=
  if tag = "int" then
    match v with
    | .vint n => .vint n
    | .vstr s => .vint (s.toInt?.getD 0)
    | _ => .vint 0
  else if tag = "float" then v
  else .vstr (asUnicode v)

/-- The row construction of `RekallEFilterArtifacts.apply` (lines 162-171):
for each declared column in order, skip it when the match has no value for
it (`match.get(name) is None`), otherwise record the coerced value. -/
def buildEfilterRow (fields : List Value) (m : RawDict) : RawDict :=
  match fields with
  | [] => []
  | column :: rest =>
    match column with
    | .vdict cd =>
      match RawDict.find cd "name", RawDict.find cd "type" with
      | some (.vstr n), some (.vstr t) =>
        match RawDict.get m n with
        | .vnone => buildEfilterRow rest m
        | v => (n, coerceValue t v) :: buildEfilterRow rest m
      | _, _ => buildEfilterRow rest m
    | _ => buildEfilterRow rest m

/-- `RekallEFilterArtifacts.apply` (lines 153-175): run the query through
the injected search capability and add one row per match (empty rows are
dropped by `add_result`); yields a single `ArtifactResult`. -/
def RekallEFilterArtifacts.apply (query : String) (query_parameters : List Value)
    (fields : List Value) (type_name : String) (session : Session)
    (artifact_name : String) : ArtifactResult :=
  (session.search query query_parameters).foldl
    (fun result m => result.add_result (buildEfilterRow fields m))
    { artifact_name := artifact_name, result_type := type_name,
      fields := fields, results := [] }

/-- The row a file hit contributes (lines 202-212): the fixed descriptive
columns, coerced to their declared types. -/
def fileInfoRow (info : FileInfo) : RawDict :=
  [("st_mode", .vstr info.st_mode), ("st_nlink", .vint info.st_nlink),
   ("st_uid", .vstr info.st_uid), ("st_gid", .vstr info.st_gid),
   ("st_size", .vint info.st_size), ("st_mtime", .vstr info.st_mtime),
   ("filename", .vstr info.filename)]

/-- `FileSourceType.apply` (lines 198-214): glob the paths through the
injected capability and add one row per hit; yields a single
`ArtifactResult` tagged `file_information`. -/
def FileSourceType.apply (paths : List Value) (session : Session)
    (artifact_name : String) : ArtifactResult :=
  (session.glob paths).foldl
    (fun result info => result.add_result (fileInfoRow info))
    { artifact_name := artifact_name, result_type := "file_information",
      fields := FileSourceType.FIELDS, results := [] }

/-- One element of the collector's output stream: either the divider dict
`{"divider": "Artifact: %s"}` or the wrapper dict `{"result": r}` around an
`ArtifactResult` (lines 456, 470-473). -/
inductive Row where
  | divider (s : String)
  | result (r : ArtifactResult)

/-- The collection-time error: `GetDefinitionByName`'s `KeyError` for a name
absent from the registry (the spec's `NotFound`). -/
inductive CollectError where
  | notFound (name : Value)

/-- The outcome of (a portion of) a collection run: the rows produced in
order, the visited set afterwards, and the error that aborted the run, if
any.  The Python generator yields the rows lazily and then raises; eager
rows-plus-error captures the same observable stream. -/
abbrev CollectRes := List Row × List String × Option CollectError

/-- `ArtifactsCollector`: the traversal engine's fixed state (registry,
platform, capabilities); the mutable `seen` set is threaded explicitly. -/
structure ArtifactsCollector where
  artifact_profile : ArtifactProfile
  supported_os : String
  session : Session

/-- `ArtifactGroupSourceType.apply` (lines 224-227) and the loop of
`ArtifactsCollector.collect` (lines 478-480): call `recur` (the collector's
`collect_artifact`) for each name in order, re-yielding its rows; an error
raised by a sub-collection aborts the loop.  A non-string name is added to
the visited set by Python just before its registry lookup raises; since the
raise immediately ends the run, the model reports the error directly. -/
def collectGroupNames (recur : List String → String → CollectRes) :
    List String → List Value → CollectRes
  | seen, [] => ([], seen, none)
  | seen, name :: rest =>
    match name with
    | .vstr s =>
      match recur seen s with
      | (rows, seen', some e) => (rows, seen', some e)
      | (rows, seen', none) =>
        match collectGroupNames recur seen' rest with
        | (rows2, seen'', err2) => (rows ++ rows2, seen'', err2)
    | v => ([], seen, some (.notFound v))

/-- Dispatch of `source.apply(...)` inside `collect_artifact` (lines
466-473), with the dict/non-dict wrapping applied: the query and file
sources yield one wrapped `ArtifactResult`; the group source re-yields the
rows of its sub-collections. -/
def applySource (c : ArtifactsCollector) (recur : List String → String → CollectRes)
    (artifact_name : String) (seen : List String) (s : SourceObj) : CollectRes :=
  match s.variant with
  | .efilter query query_parameters fields type_name =>
    ([.result (RekallEFilterArtifacts.apply query query_parameters fields
        type_name c.session artifact_name)], seen, none)
  | .file paths _separator =>
    ([.result (FileSourceType.apply paths c.session artifact_name)], seen, none)
  | .group names => collectGroupNames recur seen names

/-- The source loop of `collect_artifact` (lines 458-473): process sources
in declaration order; a source whose `supported_os` lacks the platform
returns from the generator, ending the whole artifact (not just that
source); an error from `apply` propagates after the rows already yielded. -/
def collectSources (c : ArtifactsCollector) (recur : List String → String → CollectRes)
    (artifact_name : String) : List String → List SourceObj → CollectRes
  | seen, [] => ([], seen, none)
  | seen, source :: rest =>
    if strIn c.supported_os source.supported_os then
      match applySource c recur artifact_name seen source with
      | (rows, seen', some e) => (rows, seen', some e)
      | (rows, seen', none) =>
        match collectSources c recur artifact_name seen' rest with
        | (rows2, seen'', err2) => (rows ++ rows2, seen'', err2)
    else ([], seen, none)

/-- `ArtifactsCollector.collect_artifact` (lines 437-473), indexed by a
recursion budget `fuel` (each nested group expansion consumes one unit; the
exhausted-budget result equals the visited-guard result, and a budget above
the number of registered names is always sufficient — see the fuel
theorems).  Returns the produced rows, the updated visited set and the
error, if any. -/
def ArtifactsCollector.collect_artifact (c : ArtifactsCollector) (fuel : Nat) :
    List String → String → CollectRes :=
  match fuel with
  | 0 => fun seen _ => ([], seen, none)
  | fuel + 1 => fun seen artifact_name =>
    if artifact_name ∈ seen then ([], seen, none)
    else
      let seen1 := seen ++ [artifact_name]
      match ArtifactProfile.GetDefinitionByName c.artifact_profile artifact_name with
      | none => ([], seen1, some (.notFound (.vstr artifact_name)))
      | some definition =>
        if c.supported_os ∈ definition.supported_os then
          match collectSources c (ArtifactsCollector.collect_artifact c fuel)
              definition.name seen1 definition.sources with
          | (rows, seen', err) =>
            (.divider ("Artifact: " ++ definition.name) :: rows, seen', err)
        else ([], seen1, none)

/-- `ArtifactsCollector.collect` (lines 475-480): reset the visited set to
empty, then collect each requested artifact name in order. -/
def ArtifactsCollector.collect (c : ArtifactsCollector) (fuel : Nat)
    (artifact_names : List String) : CollectRes :=
  collectGroupNames (ArtifactsCollector.collect_artifact c fuel) []
    (artifact_names.map .vstr)


/-- A raw source entry that the `BuildSources` loop constructs successfully:
a mapping whose `type` value is not `None`, is a recognized tag, and whose
class constructor succeeds on the entry. -/
def constructsOk (s : Value) : Prop :=
  ∃ sd make obj, s = .vdict sd ∧ (RawDict.get sd "type").isNone = false ∧
    sourceTypeFor (RawDict.get sd "type") = .ok (some make) ∧ make sd = .ok obj

/-- A raw source entry with an unrecognized `type` tag: a mapping whose
`type` value is not `None` and is a hashable tag outside the `SOURCE_TYPES`
table. -/
def unknownTagged (s : Value) : Prop :=
  ∃ sd, s = .vdict sd ∧ (RawDict.get sd "type").isNone = false ∧
    sourceTypeFor (RawDict.get sd "type") = .ok none

/-- The `type` values of a list of raw source mappings, in order. -/
def sourceTags (ss : List Value) : List Value :=
  ss.filterMap (fun s =>
    match s with
    | .vdict sd => some (RawDict.get sd "type")
    | _ => none)

/-- The divider strings in a produced row stream, in order (one per artifact
block). -/
def dividerStrings (rows : List Row) : List String :=
  rows.filterMap (fun r =>
    match r with
    | .divider s => some s
    | .result _ => none)

/-- The number of registered artifact names not yet visited: the recursion
budget a collection run can still consume. -/
def unseenCount (c : ArtifactsCollector) (seen : List String) : Nat :=
  (c.artifact_profile.definitions_by_name.map Prod.fst).countP
    (fun k => !decide (k ∈ seen))

/-- The visited set only ever grows by appending: `b` extends `a`. -/
def seenExt (a b : List String) : Prop := ∃ ext, b = a ++ ext

/-- The divider invariant of a collection step starting from visited set
`seen`: the produced divider strings are distinct, and each one names an
artifact that was unvisited at the start and visited at the end. -/
def DividerInv (seen : List String) (r : CollectRes) : Prop :=
  (dividerStrings r.1).Nodup ∧
    ∀ s ∈ dividerStrings r.1, ∃ nm, s = "Artifact: " ++ nm ∧
      nm ∉ seen ∧ nm ∈ r.2.1

/-- A raw artifact definition whose `sources` list holds one recognized but
invalidly-specified file source (`paths` given as a string, not a list) and
one entry with an unrecognized `type` tag. -/
def mixedSourcesDefinition : Value :=
  .vdict [("name", .vstr "X"), ("doc", .vstr "d"),
    ("sources", .vlist
      [.vdict [("type", .vstr "FILE"),
               ("attributes", .vdict [("paths", .vstr "/etc")])],
       .vdict [("type", .vstr "BOGUS"), ("attributes", .vdict [])]])]

/-- A well-formed raw file-source entry (paths given as a list). -/
def fileSourceEntry : Value :=
  .vdict [("type", .vstr "FILE"),
          ("attributes", .vdict [("paths", .vlist [.vstr "/etc"])])]

/-- A raw source entry with an unrecognized `type` tag. -/
def bogusSourceEntry : Value :=
  .vdict [("type", .vstr "BOGUS"), ("attributes", .vdict [])]

/-- A raw definition body whose sources are one valid file source and one
unrecognized-tag source. -/
def mixedSourcesDict : RawDict :=
  [("sources", .vlist [fileSourceEntry, bogusSourceEntry])]

/-- The source object `fileSourceEntry` constructs to. -/
def fileSourceObj : SourceObj :=
  { type_indicator := "FILE",
    variant := .file [.vstr "/etc"] "/",
    supported_os := [.vstr "Darwin", .vstr "Linux", .vstr "Windows"] }

/-- A raw definition body declaring an empty sources list. -/
def emptySourcesDict : RawDict := [("sources", .vlist [])]

/-- A raw definition body whose only source has an unrecognized tag. -/
def bogusOnlyDict : RawDict := [("sources", .vlist [bogusSourceEntry])]

/-- A session whose globber returns a single file record and whose query
engine returns no matches. -/
def globSession : Session :=
  { search := fun _ _ => [],
    glob := fun _ =>
      [{ st_mode := "-rw-r--r--", st_nlink := 1, st_uid := "root",
         st_gid := "root", st_size := 42, st_mtime := "2016-01-01",
         filename := "/etc/passwd" }] }

/-- A raw artifact definition with one file source. -/
def rawDefX : Value :=
  .vdict [("name", .vstr "X"), ("doc", .vstr "file artifact"),
          ("sources", .vlist [fileSourceEntry])]

/-- A raw artifact definition whose group source lists another artifact and
itself (a direct self-reference cycle). -/
def rawDefG : Value :=
  .vdict [("name", .vstr "G"), ("doc", .vstr "group artifact"),
          ("sources", .vlist
            [.vdict [("type", .vstr "ARTIFACT_GROUP"),
                     ("attributes",
                      .vdict [("names", .vlist [.vstr "X", .vstr "G"])])]])]

/-- A raw artifact definition restricted to Windows. -/
def rawDefWin : Value :=
  .vdict [("name", .vstr "W"), ("doc", .vstr "windows artifact"),
          ("sources", .vlist [fileSourceEntry]),
          ("supported_os", .vlist [.vstr "Windows"])]

/-- A registry loaded with the three demo definitions. -/
def demoProfile : ArtifactProfile :=
  ArtifactDefinitionProfileSectionLoader.LoadIntoProfile ⟨[], []⟩
    [rawDefX, rawDefG, rawDefWin]

/-- A collector over the demo registry running on Linux. -/
def demoCollector : ArtifactsCollector :=
  { artifact_profile := demoProfile, supported_os := "Linux",
    session := globSession }

/-- A source object restricted to Windows. -/
def windowsOnlySource : SourceObj :=
  { type_indicator := "FILE", variant := .file [] "/",
    supported_os := [.vstr "Windows"] }

/-- The loaded form of `rawDefWin`. -/
def defnW : ArtifactDefinition :=
  { name := "W", doc := "windows artifact", labels := [],
    undefined_labels := [], sources := [fileSourceObj],
    unsupported_source_types := [], supported_os := ["Windows"],
    conditions := [], returned_types := [], provides := [], urls := [] }

/-- A single query-column declaration (`c1` of type `int`). -/
def queryColumns : List Value :=
  [.vdict [("name", .vstr "c1"), ("type", .vstr "int")]]

/-- A query match that carries none of the declared columns. -/
def emptyMatch : RawDict := [("other", .vint 5)]

/-- A session whose query engine returns exactly one match that lacks every
declared column, and whose globber returns nothing. -/
def searchSession : Session :=
  { search := fun _ _ => [emptyMatch], glob := fun _ => [] }

/-! ### Helper lemmas -/

theorem setKey_find_self {α : Type} (m : List (String × α)) (k : String) (v : α) :
    lookupKey (setKey m k v) k = some v := by
  induction m with
  | nil => simp [setKey, lookupKey]
  | cons h t ih =>
    obtain ⟨k', v'⟩ := h
    by_cases hk : k' = k
    · simp [setKey, hk, lookupKey]
    · simp [setKey, hk, lookupKey, ih]

theorem setKey_find_other {α : Type} (m : List (String × α)) (k k' : String) (v : α)
    (h : k' ≠ k) : lookupKey (setKey m k v) k' = lookupKey m k' := by
  have h1 : ¬k = k' := fun hh => h hh.symm
  induction m with
  | nil => simp [setKey, lookupKey, h1]
  | cons hd t ih =>
    obtain ⟨k0, v0⟩ := hd
    by_cases hk : k0 = k
    · have h2 : ¬k0 = k' := by rw [hk]; exact h1
      simp [setKey, hk, lookupKey, h1, h2]
    · by_cases hk' : k0 = k'
      · simp [setKey, hk, lookupKey, hk', h]
      · simp [setKey, hk, lookupKey, hk', ih]

theorem rawdict_find_eq_lookupKey (d : RawDict) (k : String) :
    RawDict.find d k = lookupKey d k := by
  induction d with
  | nil => rfl
  | cons h t ih =>
    obtain ⟨k', v⟩ := h
    by_cases hk : k' = k <;> simp [RawDict.find, lookupKey, hk, ih]

theorem lookupKey_mem {α : Type} (m : List (String × α)) (k : String) (v : α)
    (h : lookupKey m k = some v) : (k, v) ∈ m := by
  induction m with
  | nil => simp [lookupKey] at h
  | cons hd t ih =>
    obtain ⟨k', v'⟩ := hd
    by_cases hk : k' = k
    · subst hk
      simp [lookupKey] at h
      simp [h]
    · simp [lookupKey, hk] at h
      exact List.mem_cons_of_mem _ (ih h)

theorem string_append_cancel {a b c : String} (h : a ++ b = a ++ c) : b = c := by
  cases a; cases b; cases c
  simp only [String.ext_iff] at h ⊢
  simpa using h

/-! ### Claim C4: missing non-optional fields fail validation -/

theorem loadFieldsGo_err_of_mem (data : RawDict) (e : FormatError) :
    ∀ (fields : List FieldSpec) (f : FieldSpec), f ∈ fields →
      loadField f data = .error e →
      ∀ attrs, exceptIsOk (loadFieldsGo fields data attrs) = false := by
  intro fields
  induction fields with
  | nil => intro f hf; simp at hf
  | cons g rest ih =>
    intro f hf herr attrs
    rcases List.mem_cons.mp hf with hfg | hmem
    · subst hfg
      simp [loadFieldsGo, herr, exceptIsOk]
    · cases hg : loadField g data with
      | error e' => simp [loadFieldsGo, hg, exceptIsOk]
      | ok v => simp [loadFieldsGo, hg, ih f hmem herr]

/-- Claim C4: for every field specification not marked optional, validating a
raw mapping from which that field's name is absent fails at that field with
the missing-required-field error, and validation of the enclosing object
does not succeed. -/
theorem collect_claim4_missing_required_field (f : FieldSpec) (fields : List FieldSpec)
    (data : RawDict) (hopt : f.optional = false)
    (habs : RawDict.find data f.name = none) (hmem : f ∈ fields) :
    loadField f data = .error (.missingField f.name) ∧
      exceptIsOk (_LoadFieldDefinitions fields data) = false := by
  have hf : loadField f data = .error (.missingField f.name) := by
    unfold loadField
    simp [hopt, habs]
  exact ⟨hf, loadFieldsGo_err_of_mem data _ fields f hmem hf []⟩

/-- Witness for C4: the non-optional `query` field of the query-source field
table, absent from a mapping that only carries `type_name`. -/
theorem collect_claim4_witness :
    ({ name := "query", type := some Ty.tstr : FieldSpec }.optional = false) ∧
      RawDict.find [("type_name", Value.vstr "x")] "query" = none ∧
      loadField { name := "query", type := some Ty.tstr }
          [("type_name", Value.vstr "x")] = .error (.missingField "query") ∧
      exceptIsOk (_LoadFieldDefinitions RekallEFilterArtifacts.field_definitions
          [("type_name", Value.vstr "x")]) = false := by
  have h := collect_claim4_missing_required_field
    { name := "query", type := some Ty.tstr }
    RekallEFilterArtifacts.field_definitions
    [("type_name", Value.vstr "x")] rfl rfl
    (by unfold RekallEFilterArtifacts.field_definitions; exact List.Mem.head _)
  exact ⟨rfl, rfl, h.1, h.2⟩

/-! ### Claim C5: declared and synthesized defaults -/

theorem find_setKey_self (m : RawDict) (k : String) (v : Value) :
    RawDict.find (setKey m k v) k = some v := by
  rw [rawdict_find_eq_lookupKey]; exact setKey_find_self m k v

theorem find_setKey_other (m : RawDict) (k k' : String) (v : Value) (h : k' ≠ k) :
    RawDict.find (setKey m k v) k' = RawDict.find m k' := by
  rw [rawdict_find_eq_lookupKey, rawdict_find_eq_lookupKey]
  exact setKey_find_other m k k' v h

theorem loadFieldsGo_split (data : RawDict) :
    ∀ (pre rest : List FieldSpec) (acc attrs : RawDict),
      loadFieldsGo (pre ++ rest) data acc = .ok attrs →
      ∃ acc', loadFieldsGo pre data acc = .ok acc' ∧
        loadFieldsGo rest data acc' = .ok attrs := by
  intro pre
  induction pre with
  | nil =>
    intro rest acc attrs h
    exact ⟨acc, rfl, h⟩
  | cons g t ih =>
    intro rest acc attrs h
    cases hg : loadField g data with
    | error e =>
      rw [List.cons_append] at h
      simp [loadFieldsGo, hg] at h
    | ok v =>
      rw [List.cons_append] at h
      simp only [loadFieldsGo, hg] at h
      obtain ⟨acc', h1, h2⟩ := ih rest (setKey acc g.name v) attrs h
      exact ⟨acc', by simp [loadFieldsGo, hg, h1], h2⟩

theorem loadFieldsGo_preserve (data : RawDict) (k : String) :
    ∀ (fields : List FieldSpec) (acc attrs : RawDict),
      k ∉ fields.map FieldSpec.name →
      loadFieldsGo fields data acc = .ok attrs →
      RawDict.find attrs k = RawDict.find acc k := by
  intro fields
  induction fields with
  | nil =>
    intro acc attrs _ h
    simp [loadFieldsGo] at h
    rw [h]
  | cons g t ih =>
    intro acc attrs hnm h
    simp only [List.map_cons, List.mem_cons] at hnm
    push_neg at hnm
    cases hg : loadField g data with
    | error e => simp [loadFieldsGo, hg] at h
    | ok v =>
      simp only [loadFieldsGo, hg] at h
      calc RawDict.find attrs k
          = RawDict.find (setKey acc g.name v) k := ih _ _ hnm.2 h
        _ = RawDict.find acc k := find_setKey_other _ _ _ _ hnm.1

theorem loadField_ok_default (f : FieldSpec) (data : RawDict) (d v : Value)
    (hch : f.checker = none) (habs : RawDict.find data f.name = none)
    (hdef : f.default = some d) (hok : loadField f data = .ok v) : v = d := by
  unfold loadField at hok
  rw [hdef, hch, habs] at hok
  cases hopt : f.optional with
  | false => simp [hopt] at hok
  | true =>
    rw [hopt] at hok
    cases hft : f.type with
    | none =>
      rw [hft] at hok
      by_cases hinst : Value.isinstance d d.typeOf = true
      · simpa [hinst] using hok.symm
      · simp [hinst] at hok
    | some t =>
      rw [hft] at hok
      by_cases hinst : Value.isinstance d t = true
      · simpa [hinst] using hok.symm
      · simp [hinst] at hok

/-- Claim C5: a field with a declared default and no value in the input gets
exactly that default (when the declared type, if any, matches the default);
a field with a declared type and no default gets the type's zero value as
its synthesized default, the string-like type synthesizing the empty
string; and at the level of the whole validated object, a defaulted field
absent from the input ends up bound to its default. -/
theorem collect_claim5_defaults (f : FieldSpec) (data : RawDict)
    (hch : f.checker = none) (habs : RawDict.find data f.name = none) :
    (∀ d, f.default = some d → f.optional = true →
        (f.type = none ∨ f.type = some d.typeOf) →
        loadField f data = .ok d) ∧
    (∀ t, f.default = none → f.type = some t → f.optional = true →
        loadField f data = .ok t.zero) ∧
    (Ty.zero .tstr = .vstr "" ∧ Ty.zero .tint = .vint 0 ∧
      Ty.zero .tlist = .vlist []) ∧
    (∀ (fields : List FieldSpec) (attrs : RawDict) (d : Value),
        (fields.map FieldSpec.name).Nodup → f ∈ fields →
        f.default = some d →
        _LoadFieldDefinitions fields data = .ok attrs →
        RawDict.find attrs f.name = some d) := by
  refine ⟨?_, ?_, ⟨rfl, rfl, rfl⟩, ?_⟩
  · intro d hdef hopt htype
    unfold loadField
    rw [hdef, hch, habs, hopt]
    rcases htype with hft | hft <;> rw [hft] <;>
      simp [Value.isinstance]
  · intro t hdef hft hopt
    unfold loadField
    rw [hdef, hch, habs, hopt, hft]
    cases t <;> simp [Value.isinstance, Ty.zero, Value.typeOf]
  · intro fields attrs d hnodup hmem hdef hok
    obtain ⟨pre, post, rfl⟩ := List.append_of_mem hmem
    unfold _LoadFieldDefinitions at hok
    obtain ⟨acc', h1, h2⟩ := loadFieldsGo_split data pre (f :: post) [] attrs hok
    cases hf : loadField f data with
    | error e => simp [loadFieldsGo, hf] at h2
    | ok v =>
      have hv : v = d := loadField_ok_default f data d v hch habs hdef hf
      subst hv
      simp only [loadFieldsGo, hf] at h2
      have hpost : f.name ∉ post.map FieldSpec.name := by
        rw [List.map_append, List.map_cons] at hnodup
        have := hnodup.of_append_right
        exact (List.nodup_cons.mp this).1
      calc RawDict.find attrs f.name
          = RawDict.find (setKey acc' f.name v) f.name :=
            loadFieldsGo_preserve data f.name post _ attrs hpost h2
        _ = some v := find_setKey_self _ _ _

/-- Witness for C5: the `supported_os` field of the file-source table picks
up its declared default on an input that omits it, both at the single-field
level and on the validated attributes; the optional typed `provides` field
of the definition table synthesizes the empty-list default; and the
string-like zero value is the empty string. -/
theorem collect_claim5_witness :
    loadField
        { name := "supported_os", optional := true,
          default := some SUPPORTED_OS_value }
        [("paths", Value.vlist [])] = .ok SUPPORTED_OS_value ∧
      loadField { name := "provides", type := some Ty.tlist, optional := true }
        [("paths", Value.vlist [])] = .ok (.vlist []) ∧
      Ty.zero .tstr = .vstr "" ∧
      _LoadFieldDefinitions FileSourceType.field_definitions
          [("paths", Value.vlist [])] =
        .ok [("paths", Value.vlist []), ("separator", Value.vstr "/"),
             ("supported_os", SUPPORTED_OS_value)] ∧
      RawDict.find
          [("paths", Value.vlist []), ("separator", Value.vstr "/"),
           ("supported_os", SUPPORTED_OS_value)] "supported_os" =
        some SUPPORTED_OS_value := by
  refine ⟨?_, ?_, rfl, rfl, ?_⟩
  · exact (collect_claim5_defaults
      { name := "supported_os", optional := true,
        default := some SUPPORTED_OS_value }
      [("paths", Value.vlist [])] rfl rfl).1 SUPPORTED_OS_value rfl rfl (Or.inl rfl)
  · exact (collect_claim5_defaults
      { name := "provides", type := some Ty.tlist, optional := true }
      [("paths", Value.vlist [])] rfl rfl).2.1 Ty.tlist rfl rfl rfl
  · exact (collect_claim5_defaults
      { name := "supported_os", optional := true,
        default := some SUPPORTED_OS_value }
      [("paths", Value.vlist [])] rfl rfl).2.2.2
      FileSourceType.field_definitions _ SUPPORTED_OS_value (by decide)
      (by unfold FileSourceType.field_definitions
          exact .tail _ (.tail _ (.head _))) rfl rfl

/-! ### Claim C3: a failing definition is skipped, the rest still load -/

theorem AddDefinition_error (p : ArtifactProfile) (d : Value) (e : FormatError)
    (h : ArtifactDefinition.load d = .error e) :
    ArtifactProfile.AddDefinition p d = .error e := by
  unfold ArtifactProfile.AddDefinition
  rw [h]

/-- Claim C3: `AddDefinition` surfaces the construction failure of a raw
definition as a `FormatError`, and `LoadIntoProfile` catches it and skips
that definition, so a failing definition never aborts loading of the other
definitions in the same load: the resulting profile is the one obtained by
loading the same sequence without the failing definition. -/
theorem collect_claim3_partial_load (d : Value) (e : FormatError)
    (h : ArtifactDefinition.load d = .error e) :
    (∀ p : ArtifactProfile, ArtifactProfile.AddDefinition p d = .error e) ∧
      (∀ (p : ArtifactProfile) (pre post : List Value),
        ArtifactDefinitionProfileSectionLoader.LoadIntoProfile p (pre ++ d :: post) =
          ArtifactDefinitionProfileSectionLoader.LoadIntoProfile p (pre ++ post)) := by
  refine ⟨fun p => AddDefinition_error p d e h, fun p pre post => ?_⟩
  unfold ArtifactDefinitionProfileSectionLoader.LoadIntoProfile
  rw [List.foldl_append, List.foldl_append, List.foldl_cons,
    AddDefinition_error _ d e h]

/-- Witness for C3: a definition missing its required `doc` field fails to
load but does not prevent a later valid file-source definition in the same
batch from loading. -/
theorem collect_claim3_witness :
    ArtifactDefinition.load (.vdict [("name", .vstr "Bad")]) =
        .error (.definitionError "Bad" (.missingField "doc")) ∧
      ArtifactDefinitionProfileSectionLoader.LoadIntoProfile ⟨[], []⟩
          [.vdict [("name", .vstr "Bad")],
           .vdict [("name", .vstr "Good"), ("doc", .vstr "g"),
                   ("sources", .vlist [.vdict [("type", .vstr "FILE"),
                     ("attributes", .vdict [("paths", .vlist [.vstr "/etc"])])]])]] =
        ArtifactDefinitionProfileSectionLoader.LoadIntoProfile ⟨[], []⟩
          [.vdict [("name", .vstr "Good"), ("doc", .vstr "g"),
                   ("sources", .vlist [.vdict [("type", .vstr "FILE"),
                     ("attributes", .vdict [("paths", .vlist [.vstr "/etc"])])]])]] := by
  refine ⟨rfl, ?_⟩
  exact (collect_claim3_partial_load (.vdict [("name", .vstr "Bad")])
    (.definitionError "Bad" (.missingField "doc")) rfl).2 ⟨[], []⟩ []
    [.vdict [("name", .vstr "Good"), ("doc", .vstr "g"),
             ("sources", .vlist [.vdict [("type", .vstr "FILE"),
               ("attributes", .vdict [("paths", .vlist [.vstr "/etc"])])]])]]

/-! ### Claims C6 and C7: source construction, unsupported tags, zero sources -/

theorem BuildSourcesList_cons_no_type (sd : RawDict) (rest : List Value)
    (hn : (RawDict.get sd "type").isNone = true) :
    BuildSourcesList (.vdict sd :: rest) = .error .sourceHasNoType := by
  simp only [BuildSourcesList, hn, if_true]

theorem BuildSourcesList_cons_bad_tag (sd : RawDict) (rest : List Value)
    (e : FormatError) (hn : (RawDict.get sd "type").isNone = false)
    (herr : sourceTypeFor (RawDict.get sd "type") = .error e) :
    BuildSourcesList (.vdict sd :: rest) = .error e := by
  simp only [BuildSourcesList, hn, Bool.false_eq_true, if_false, herr]

theorem BuildSourcesList_cons_make_error (sd : RawDict) (rest : List Value)
    (make : RawDict → Except FormatError SourceObj) (e : FormatError)
    (hn : (RawDict.get sd "type").isNone = false)
    (hmk : sourceTypeFor (RawDict.get sd "type") = .ok (some make))
    (hobj : make sd = .error e) :
    BuildSourcesList (.vdict sd :: rest) = .error e := by
  simp only [BuildSourcesList, hn, Bool.false_eq_true, if_false, hmk, hobj]

theorem BuildSourcesList_cons_unknown (sd : RawDict) (rest : List Value)
    (hn : (RawDict.get sd "type").isNone = false)
    (hunk : sourceTypeFor (RawDict.get sd "type") = .ok none) :
    BuildSourcesList (.vdict sd :: rest) =
      Except.map (fun p => (p.1, RawDict.get sd "type" :: p.2))
        (BuildSourcesList rest) := by
  simp only [BuildSourcesList, hn, Bool.false_eq_true, if_false, hunk]
  cases BuildSourcesList rest with
  | error e => rfl
  | ok p => obtain ⟨objs, unsup⟩ := p; rfl

theorem BuildSourcesList_cons_known (sd : RawDict) (rest : List Value)
    (make : RawDict → Except FormatError SourceObj) (obj : SourceObj)
    (hn : (RawDict.get sd "type").isNone = false)
    (hmk : sourceTypeFor (RawDict.get sd "type") = .ok (some make))
    (hobj : make sd = .ok obj) :
    BuildSourcesList (.vdict sd :: rest) =
      Except.map (fun p => (obj :: p.1, p.2)) (BuildSourcesList rest) := by
  simp only [BuildSourcesList, hn, Bool.false_eq_true, if_false, hmk, hobj]
  cases BuildSourcesList rest with
  | error e => rfl
  | ok p => obtain ⟨objs, unsup⟩ := p; rfl

/-- Fidelity of the no-type check (`source.get("type") is None`, lines
261-263): a `type` key explicitly bound to `None` aborts the load exactly
like an absent `type` key; neither is recorded as an unsupported tag. -/
theorem BuildSourcesList_explicit_none :
    BuildSourcesList [.vdict [("type", .vnone)]] = .error .sourceHasNoType ∧
      BuildSourcesList [.vdict [("name", .vstr "x")]] =
        .error .sourceHasNoType :=
  ⟨rfl, rfl⟩

/-- Fidelity of the tag lookup (line 265): an unhashable `type` tag makes
`SOURCE_TYPES.get` itself raise, aborting the load rather than recording an
unsupported tag. -/
theorem BuildSourcesList_unhashable_tag :
    sourceTypeFor (.vlist []) = .error .typeError ∧
      sourceTypeFor (.vdict []) = .error .typeError ∧
      BuildSourcesList [.vdict [("type", .vlist [])]] = .error .typeError :=
  ⟨rfl, rfl, rfl⟩

theorem BuildSourcesList_all_ok :
    ∀ ss : List Value, (∀ s ∈ ss, constructsOk s ∨ unknownTagged s) →
      ∃ objs unsup, BuildSourcesList ss = .ok (objs, unsup) ∧
        ((∃ s ∈ ss, constructsOk s) → objs ≠ []) := by
  intro ss
  induction ss with
  | nil =>
    intro _
    exact ⟨[], [], rfl, by simp⟩
  | cons s rest ih =>
    intro h
    obtain ⟨objs, unsup, hrest, hne⟩ := ih (fun x hx => h x (List.mem_cons_of_mem s hx))
    rcases h s (List.mem_cons_self s rest) with hc | hu
    · obtain ⟨sd, make, obj, rfl, hn, hmk, hobj⟩ := hc
      refine ⟨obj :: objs, unsup, ?_, fun _ => by simp⟩
      rw [BuildSourcesList_cons_known sd rest make obj hn hmk hobj, hrest]
      rfl
    · obtain ⟨sd, rfl, hn, hunk⟩ := hu
      refine ⟨objs, RawDict.get sd "type" :: unsup, ?_, ?_⟩
      · rw [BuildSourcesList_cons_unknown sd rest hn hunk, hrest]
        rfl
      · rintro ⟨s', hs', hcs'⟩
        rcases List.mem_cons.mp hs' with rfl | hmem
        · obtain ⟨sd', make', obj', heq, hn', hmk', -⟩ := hcs'
          obtain rfl : sd = sd' := by injection heq
          rw [hunk] at hmk'
          injection hmk' with hx
          exact Option.noConfusion hx
        · exact hne ⟨s', hmem, hcs'⟩

theorem BuildSourcesList_tag_recorded :
    ∀ (ss : List Value) (objs : List SourceObj) (unsup : List Value),
      BuildSourcesList ss = .ok (objs, unsup) →
      ∀ sd : RawDict, .vdict sd ∈ ss →
        (RawDict.get sd "type").isNone = false →
        sourceTypeFor (RawDict.get sd "type") = .ok none →
        RawDict.get sd "type" ∈ unsup := by
  intro ss
  induction ss with
  | nil =>
    intro objs unsup _ sd hmem
    simp at hmem
  | cons s rest ih =>
    intro objs unsup hok sd hmem hn hunk
    rcases List.mem_cons.mp hmem with rfl | hmem'
    · rw [BuildSourcesList_cons_unknown sd rest hn hunk] at hok
      cases hrest : BuildSourcesList rest with
      | error e =>
        rw [hrest] at hok
        exact Except.noConfusion hok
      | ok p =>
        obtain ⟨objs', unsup'⟩ := p
        rw [hrest] at hok
        simp only [Except.map] at hok
        obtain ⟨-, h2⟩ : objs' = objs ∧ RawDict.get sd "type" :: unsup' = unsup := by
          simpa using hok
        rw [← h2]
        exact List.mem_cons_self _ unsup'
    · cases s with
      | vdict sd0 =>
        cases hn0 : (RawDict.get sd0 "type").isNone with
        | true =>
          rw [BuildSourcesList_cons_no_type sd0 rest hn0] at hok
          exact Except.noConfusion hok
        | false =>
          cases hmk : sourceTypeFor (RawDict.get sd0 "type") with
          | error e =>
            rw [BuildSourcesList_cons_bad_tag sd0 rest e hn0 hmk] at hok
            exact Except.noConfusion hok
          | ok o =>
            cases o with
            | some make =>
              cases hobj : make sd0 with
              | error e =>
                rw [BuildSourcesList_cons_make_error sd0 rest make e hn0 hmk
                  hobj] at hok
                exact Except.noConfusion hok
              | ok obj =>
                rw [BuildSourcesList_cons_known sd0 rest make obj hn0 hmk
                  hobj] at hok
                cases hrest : BuildSourcesList rest with
                | error e =>
                  rw [hrest] at hok
                  exact Except.noConfusion hok
                | ok p =>
                  obtain ⟨objs', unsup'⟩ := p
                  rw [hrest] at hok
                  simp only [Except.map] at hok
                  obtain ⟨-, rfl⟩ : obj :: objs' = objs ∧ unsup' = unsup := by
                    simpa using hok
                  exact ih objs' unsup' hrest sd hmem' hn hunk
            | none =>
              rw [BuildSourcesList_cons_unknown sd0 rest hn0 hmk] at hok
              cases hrest : BuildSourcesList rest with
              | error e =>
                rw [hrest] at hok
                exact Except.noConfusion hok
              | ok p =>
                obtain ⟨objs', unsup'⟩ := p
                rw [hrest] at hok
                simp only [Except.map] at hok
                obtain ⟨-, h2⟩ : objs' = objs ∧
                    RawDict.get sd0 "type" :: unsup' = unsup := by
                  simpa using hok
                rw [← h2]
                exact List.mem_cons_of_mem _ (ih objs' unsup' hrest sd hmem' hn hunk)
      | vnone => simp [BuildSourcesList] at hok
      | vstr s0 => simp [BuildSourcesList] at hok
      | vint n0 => simp [BuildSourcesList] at hok
      | vlist l0 => simp [BuildSourcesList] at hok

theorem BuildSources_ok_of_list_ok (data : RawDict) (ss : List Value)
    (objs : List SourceObj) (unsup : List Value)
    (hfind : RawDict.find data "sources" = some (.vlist ss))
    (hlist : BuildSourcesList ss = .ok (objs, unsup)) (hne : objs ≠ []) :
    BuildSources data = .ok (objs, unsup) := by
  simp only [BuildSources, hfind, hlist]
  simp [List.isEmpty_iff, hne]

theorem BuildSources_ok_inv (data : RawDict) (objs : List SourceObj)
    (unsup : List Value) (h : BuildSources data = .ok (objs, unsup)) :
    (∃ ss, RawDict.find data "sources" = some (.vlist ss) ∧
      BuildSourcesList ss = .ok (objs, unsup)) ∧ objs ≠ [] := by
  cases hfind : RawDict.find data "sources" with
  | none =>
    simp only [BuildSources, hfind] at h
    exact Except.noConfusion h
  | some v =>
    cases v with
    | vlist ss =>
      cases hlist : BuildSourcesList ss with
      | error e =>
        simp only [BuildSources, hfind, hlist] at h
        exact Except.noConfusion h
      | ok p =>
        obtain ⟨objs0, unsup0⟩ := p
        simp only [BuildSources, hfind, hlist] at h
        cases hemp : objs0.isEmpty with
        | true =>
          rw [hemp] at h
          simp only [if_pos] at h
          split at h <;> exact Except.noConfusion h
        | false =>
          rw [hemp] at h
          simp only [Bool.false_eq_true, if_false] at h
          injection h with h1
          injection h1 with h2 h3
          subst h2
          subst h3
          refine ⟨⟨ss, rfl, hlist⟩, fun hnil => ?_⟩
          rw [hnil] at hemp
          simp at hemp
    | vnone =>
      simp only [BuildSources, hfind] at h
      exact Except.noConfusion h
    | vstr s0 =>
      simp only [BuildSources, hfind] at h
      exact Except.noConfusion h
    | vint n0 =>
      simp only [BuildSources, hfind] at h
      exact Except.noConfusion h
    | vdict d0 =>
      simp only [BuildSources, hfind] at h
      exact Except.noConfusion h

/-- Claim C6 (amended): a source entry whose present, non-`None`, hashable
`type` tag is not in the `SOURCE_TYPES` table is not constructed and does
not by itself fail the load — the loop skips it and appends its tag to
`unsupported_source_types` — and whenever the sources build succeeds the
unrecognized tags all appear in that list; the build succeeds provided at
least one source entry constructs successfully (a recognized `type` tag
alone does not suffice: a recognized entry whose construction fails aborts
the load) and every other entry either constructs or carries such an
unrecognized tag.  (An absent or explicitly-`None` `type` and an unhashable
tag abort the load instead — see `BuildSourcesList_explicit_none` and
`BuildSourcesList_unhashable_tag`.) -/
theorem collect_claim6_unsupported_sources :
    (∀ (sd : RawDict) (rest : List Value),
        (RawDict.get sd "type").isNone = false →
        sourceTypeFor (RawDict.get sd "type") = .ok none →
        BuildSourcesList (.vdict sd :: rest) =
          Except.map (fun p => (p.1, RawDict.get sd "type" :: p.2))
            (BuildSourcesList rest)) ∧
      (∀ (data : RawDict) (ss : List Value) (objs : List SourceObj)
          (unsup : List Value) (sd : RawDict),
        RawDict.find data "sources" = some (.vlist ss) →
        BuildSources data = .ok (objs, unsup) →
        .vdict sd ∈ ss → (RawDict.get sd "type").isNone = false →
        sourceTypeFor (RawDict.get sd "type") = .ok none →
        RawDict.get sd "type" ∈ unsup) ∧
      (∀ (data : RawDict) (ss : List Value),
        RawDict.find data "sources" = some (.vlist ss) →
        (∀ s ∈ ss, constructsOk s ∨ unknownTagged s) →
        (∃ s ∈ ss, constructsOk s) →
        ∃ objs unsup, BuildSources data = .ok (objs, unsup)) := by
  refine ⟨BuildSourcesList_cons_unknown, ?_, ?_⟩
  · intro data ss objs unsup sd hfind hok hmem hn hunk
    obtain ⟨⟨ss', hfind', hlist⟩, -⟩ := BuildSources_ok_inv data objs unsup hok
    rw [hfind] at hfind'
    obtain rfl : ss = ss' := by
      injection hfind' with h
      injection h
    exact BuildSourcesList_tag_recorded ss objs unsup hlist sd hmem hn hunk
  · intro data ss hfind hall hsome
    obtain ⟨objs, unsup, hlist, hne⟩ := BuildSourcesList_all_ok ss hall
    exact ⟨objs, unsup, BuildSources_ok_of_list_ok data ss objs unsup hfind hlist
      (hne hsome)⟩

/-- Counterexample to C6 as stated: `mixedSourcesDefinition` declares one
source with the recognized tag `FILE` (but an invalid `paths` attribute) and
one source with the unrecognized tag `BOGUS`; the claim predicts the
definition still loads successfully, yet the load fails with the
type-mismatch error of the recognized source. -/
theorem collect_claim6_counterexample :
    sourceTypeFor (.vstr "FILE") = .ok (some FileSourceType.make) ∧
      sourceTypeFor (.vstr "BOGUS") = .ok none ∧
      ArtifactDefinition.load mixedSourcesDefinition =
        .error (.definitionError "X" (.typeMismatch "paths")) :=
  ⟨rfl, rfl, rfl⟩

/-- Witness for the amended C6 on concrete data: skipping a `BOGUS` entry,
recording its tag, and a successful build whose surviving source is the
valid file source. -/
theorem collect_claim6_witness :
    BuildSourcesList [bogusSourceEntry] =
        Except.map (fun p => (p.1, Value.vstr "BOGUS" :: p.2))
          (BuildSourcesList []) ∧
      Value.vstr "BOGUS" ∈ ([Value.vstr "BOGUS"] : List Value) ∧
      (∃ objs unsup, BuildSources mixedSourcesDict = .ok (objs, unsup)) := by
  have hfileOk : constructsOk fileSourceEntry :=
    ⟨[("type", .vstr "FILE"),
      ("attributes", .vdict [("paths", .vlist [.vstr "/etc"])])],
     FileSourceType.make, fileSourceObj, rfl, rfl, rfl, rfl⟩
  have hbogus : unknownTagged bogusSourceEntry :=
    ⟨[("type", .vstr "BOGUS"), ("attributes", .vdict [])], rfl, rfl, rfl⟩
  refine ⟨?_, ?_, ?_⟩
  · exact collect_claim6_unsupported_sources.1
      [("type", .vstr "BOGUS"), ("attributes", .vdict [])] [] rfl rfl
  · exact collect_claim6_unsupported_sources.2.1 mixedSourcesDict
      [fileSourceEntry, bogusSourceEntry] [fileSourceObj] [Value.vstr "BOGUS"]
      [("type", .vstr "BOGUS"), ("attributes", .vdict [])]
      rfl rfl (by right; exact List.mem_cons_self _ _) rfl rfl
  · refine collect_claim6_unsupported_sources.2.2 mixedSourcesDict
      [fileSourceEntry, bogusSourceEntry] rfl ?_ ⟨fileSourceEntry, by simp, hfileOk⟩
    intro s hs
    rcases List.mem_cons.mp hs with rfl | hs'
    · exact Or.inl hfileOk
    · rcases List.mem_cons.mp hs' with rfl | hs''
      · exact Or.inr hbogus
      · simp at hs''

theorem BuildSourcesList_all_unknown :
    ∀ ss : List Value, (∀ s ∈ ss, unknownTagged s) →
      BuildSourcesList ss = .ok ([], sourceTags ss) := by
  intro ss
  induction ss with
  | nil => intro _; rfl
  | cons s rest ih =>
    intro h
    obtain ⟨sd, rfl, hn, hunk⟩ := h s (List.mem_cons_self s rest)
    rw [BuildSourcesList_cons_unknown sd rest hn hunk,
      ih (fun x hx => h x (List.mem_cons_of_mem _ hx))]
    simp [sourceTags, List.filterMap_cons, Except.map]

/-- Claim C7: loading with a `sources` entry from which zero sources survive
fails with a `FormatError` distinguishing the two cases — an empty sources
list fails with the no-available-sources error, a non-empty list whose
entries all carry unrecognized tags fails with the no-supported-sources
error naming those tags — and a successful `BuildSources` always returns at
least one source. -/
theorem collect_claim7_zero_sources :
    (∀ data : RawDict, RawDict.find data "sources" = some (.vlist []) →
        BuildSources data = .error .noAvailableSources) ∧
      (∀ (data : RawDict) (ss : List Value),
        RawDict.find data "sources" = some (.vlist ss) → ss ≠ [] →
        (∀ s ∈ ss, unknownTagged s) →
        BuildSources data = .error (.noSupportedSources (sourceTags ss))) ∧
      (∀ (data : RawDict) (objs : List SourceObj) (unsup : List Value),
        BuildSources data = .ok (objs, unsup) → objs ≠ []) := by
  refine ⟨?_, ?_, ?_⟩
  · intro data hfind
    simp [BuildSources, hfind, BuildSourcesList]
  · intro data ss hfind hne hall
    have hlist := BuildSourcesList_all_unknown ss hall
    have htags : sourceTags ss ≠ [] := by
      cases ss with
      | nil => exact absurd rfl hne
      | cons s rest =>
        obtain ⟨sd, rfl, -, -⟩ := hall s (List.mem_cons_self s rest)
        simp [sourceTags, List.filterMap_cons]
    simp only [BuildSources, hfind, hlist, List.isEmpty_nil, if_pos]
    rw [if_neg]
    simp [List.isEmpty_iff, htags]
  · intro data objs unsup h
    exact (BuildSources_ok_inv data objs unsup h).2

/-- Witness for C7: the empty sources list, the all-unrecognized sources
list, and a successful build returning a non-empty source list. -/
theorem collect_claim7_witness :
    BuildSources emptySourcesDict = .error .noAvailableSources ∧
      BuildSources bogusOnlyDict =
        .error (.noSupportedSources [Value.vstr "BOGUS"]) ∧
      ([fileSourceObj] : List SourceObj) ≠ [] := by
  have hbogus : unknownTagged bogusSourceEntry :=
    ⟨[("type", .vstr "BOGUS"), ("attributes", .vdict [])], rfl, rfl, rfl⟩
  refine ⟨?_, ?_, ?_⟩
  · exact collect_claim7_zero_sources.1 emptySourcesDict rfl
  · have h := collect_claim7_zero_sources.2.1 bogusOnlyDict [bogusSourceEntry]
      rfl (by simp) ?_
    · have htags : sourceTags [bogusSourceEntry] = [Value.vstr "BOGUS"] := rfl
      rw [htags] at h
      exact h
    · intro s hs
      rcases List.mem_cons.mp hs with rfl | hs'
      · exact hbogus
      · simp at hs'
  · exact collect_claim7_zero_sources.2.2 mixedSourcesDict [fileSourceObj]
      [Value.vstr "BOGUS"] rfl

/-! ### Claim C2: a platform-mismatched source aborts the remaining sources -/

/-- Claim C2: in the source loop of `collect_artifact`, a source whose
`supported_os` lacks the collector's platform makes the loop return
immediately — the whole remainder of the artifact's source list is never
processed (the result does not depend on what follows the mismatching
source), while the rows of the sources processed before it are unaffected. -/
theorem collect_claim2_source_mismatch_aborts (c : ArtifactsCollector)
    (fuel : Nat) (artifact_name : String) (s : SourceObj)
    (hm : strIn c.supported_os s.supported_os = false) :
    (∀ (seen : List String) (post : List SourceObj),
        collectSources c (ArtifactsCollector.collect_artifact c fuel)
          artifact_name seen (s :: post) = ([], seen, none)) ∧
      (∀ (pre : List SourceObj) (seen : List String)
          (post post' : List SourceObj),
        collectSources c (ArtifactsCollector.collect_artifact c fuel)
            artifact_name seen (pre ++ s :: post) =
          collectSources c (ArtifactsCollector.collect_artifact c fuel)
            artifact_name seen (pre ++ s :: post')) := by
  have hstop : ∀ (seen : List String) (post : List SourceObj),
      collectSources c (ArtifactsCollector.collect_artifact c fuel)
        artifact_name seen (s :: post) = ([], seen, none) := by
    intro seen post
    simp [collectSources, hm]
  refine ⟨hstop, ?_⟩
  intro pre
  induction pre with
  | nil =>
    intro seen post post'
    rw [List.nil_append, List.nil_append, hstop, hstop]
  | cons g t ih =>
    intro seen post post'
    rw [List.cons_append, List.cons_append]
    cases hg : strIn c.supported_os g.supported_os with
    | false => simp [collectSources, hg]
    | true =>
      simp only [collectSources, hg]
      rcases happ : applySource c (ArtifactsCollector.collect_artifact c fuel)
          artifact_name seen g with ⟨rows, seen', err⟩
      cases err with
      | some e => simp
      | none => simp only []; rw [ih seen' post post']

/-- Witness for C2: on the demo collector, a Windows-only source stops the
loop immediately (no rows, visited set unchanged), and the result of a list
with sources after the mismatch equals the result with them removed. -/
theorem collect_claim2_witness :
    strIn demoCollector.supported_os windowsOnlySource.supported_os = false ∧
      collectSources demoCollector
          (ArtifactsCollector.collect_artifact demoCollector 3) "A" ["seen0"]
          (windowsOnlySource :: [fileSourceObj]) = ([], ["seen0"], none) ∧
      collectSources demoCollector
          (ArtifactsCollector.collect_artifact demoCollector 3) "A" []
          ([fileSourceObj] ++ windowsOnlySource :: [fileSourceObj]) =
        collectSources demoCollector
          (ArtifactsCollector.collect_artifact demoCollector 3) "A" []
          ([fileSourceObj] ++ windowsOnlySource :: []) := by
  refine ⟨rfl, ?_, ?_⟩
  · exact (collect_claim2_source_mismatch_aborts demoCollector 3 "A"
      windowsOnlySource rfl).1 ["seen0"] [fileSourceObj]
  · exact (collect_claim2_source_mismatch_aborts demoCollector 3 "A"
      windowsOnlySource rfl).2 [fileSourceObj] [] [fileSourceObj] []

/-! ### Claim C8: artifact-level platform filtering -/

/-- Claim C8: an artifact registered in the profile whose `supported_os`
does not contain the collector's platform yields zero rows — not even a
divider — and raises no error; the name is still marked visited. -/
theorem collect_claim8_platform_skip (c : ArtifactsCollector) (fuel : Nat)
    (seen : List String) (artifact_name : String) (defn : ArtifactDefinition)
    (h1 : artifact_name ∉ seen)
    (h2 : ArtifactProfile.GetDefinitionByName c.artifact_profile artifact_name =
      some defn)
    (h3 : c.supported_os ∉ defn.supported_os) :
    ArtifactsCollector.collect_artifact c (fuel + 1) seen artifact_name =
      ([], seen ++ [artifact_name], none) := by
  simp [ArtifactsCollector.collect_artifact, h1, h2, h3]

/-! ### Claim C9: a missing artifact name aborts the run -/

/-- Claim C9: requesting a name absent from the registry (and not already
visited) fails with the not-found error, which propagates to the caller of
the collection run: `collect` stops at that name and the remaining requested
names are never processed. -/
theorem collect_claim9_not_found (c : ArtifactsCollector) (fuel : Nat)
    (seen : List String) (artifact_name : String)
    (h1 : artifact_name ∉ seen)
    (h2 : ArtifactProfile.GetDefinitionByName c.artifact_profile artifact_name =
      none) :
    ArtifactsCollector.collect_artifact c (fuel + 1) seen artifact_name =
        ([], seen ++ [artifact_name], some (.notFound (.vstr artifact_name))) ∧
      (∀ rest : List String,
        ArtifactsCollector.collect c (fuel + 1) (artifact_name :: rest) =
          ([], [artifact_name], some (.notFound (.vstr artifact_name)))) := by
  have hbase : ∀ seen' : List String, artifact_name ∉ seen' →
      ArtifactsCollector.collect_artifact c (fuel + 1) seen' artifact_name =
        ([], seen' ++ [artifact_name], some (.notFound (.vstr artifact_name))) := by
    intro seen' h1'
    simp [ArtifactsCollector.collect_artifact, h1', h2]
  refine ⟨hbase seen h1, ?_⟩
  intro rest
  have h0 : artifact_name ∉ ([] : List String) := by simp
  unfold ArtifactsCollector.collect
  rw [List.map_cons]
  simp [collectGroupNames, hbase [] h0]

/-- Witness for C8: on the demo collector (platform Linux), the registered
Windows-only artifact `W` produces no rows and no error, and is marked
visited. -/
theorem collect_claim8_witness :
    ("W" ∉ ([] : List String)) ∧
      ArtifactProfile.GetDefinitionByName demoCollector.artifact_profile "W" =
        some defnW ∧
      ("Linux" ∉ defnW.supported_os) ∧
      ArtifactsCollector.collect_artifact demoCollector 3 [] "W" =
        ([], ["W"], none) := by
  refine ⟨by simp, rfl, by decide, ?_⟩
  exact collect_claim8_platform_skip demoCollector 2 [] "W" defnW (by simp) rfl
    (by decide)

/-- Witness for C9: the name `Missing` is not registered; collecting it
fails with the not-found error and a `collect` run requesting it never
reaches the valid artifact requested after it. -/
theorem collect_claim9_witness :
    ArtifactProfile.GetDefinitionByName demoCollector.artifact_profile
        "Missing" = none ∧
      ArtifactsCollector.collect_artifact demoCollector 3 ["other"] "Missing" =
        ([], ["other", "Missing"], some (.notFound (.vstr "Missing"))) ∧
      ArtifactsCollector.collect demoCollector 3 ["Missing", "X"] =
        ([], ["Missing"], some (.notFound (.vstr "Missing"))) := by
  refine ⟨rfl, ?_, ?_⟩
  · exact (collect_claim9_not_found demoCollector 2 ["other"] "Missing"
      (by decide) rfl).1
  · exact (collect_claim9_not_found demoCollector 2 [] "Missing"
      (by decide) rfl).2 ["X"]

/-! ### Claim C10: result rows are never empty mappings -/

theorem mem_add_result (r : ArtifactResult) (d x : RawDict)
    (h : x ∈ (r.add_result d).results) : x ∈ r.results ∨ (x = d ∧ d ≠ []) := by
  unfold ArtifactResult.add_result at h
  cases hd : d.isEmpty with
  | true =>
    rw [hd] at h
    simp only [if_pos] at h
    exact Or.inl h
  | false =>
    rw [hd] at h
    simp only [Bool.false_eq_true, if_false, List.mem_append,
      List.mem_singleton] at h
    rcases h with h | rfl
    · exact Or.inl h
    · refine Or.inr ⟨rfl, fun hnil => ?_⟩
      rw [hnil] at hd
      simp at hd

theorem foldl_add_result_nonempty {α : Type} (f : α → RawDict) :
    ∀ (l : List α) (r : ArtifactResult), (∀ x ∈ r.results, x ≠ []) →
      ∀ x ∈ (l.foldl (fun acc m => acc.add_result (f m)) r).results, x ≠ [] := by
  intro l
  induction l with
  | nil => intro r hr x hx; exact hr x hx
  | cons m t ih =>
    intro r hr x hx
    refine ih (r.add_result (f m)) ?_ x hx
    intro y hy
    rcases mem_add_result r (f m) y hy with hmem | ⟨rfl, hne⟩
    · exact hr y hmem
    · exact hne

theorem buildEfilterRow_all_absent :
    ∀ (fields : List Value) (m : RawDict),
      (∀ (cd : RawDict) (n : String), .vdict cd ∈ fields →
        RawDict.find cd "name" = some (.vstr n) → RawDict.get m n = .vnone) →
      buildEfilterRow fields m = [] := by
  intro fields
  induction fields with
  | nil => intro m _; rfl
  | cons col rest ih =>
    intro m h
    have hrest := ih m (fun cd n hcd hn => h cd n (List.mem_cons_of_mem _ hcd) hn)
    cases col with
    | vdict cd =>
      cases hn : RawDict.find cd "name" with
      | none => simp only [buildEfilterRow, hn]; exact hrest
      | some nv =>
        cases nv with
        | vstr n =>
          cases ht : RawDict.find cd "type" with
          | none => simp only [buildEfilterRow, hn, ht]; exact hrest
          | some tv =>
            cases tv with
            | vstr t =>
              have habs := h cd n (List.mem_cons_self _ _) hn
              simp only [buildEfilterRow, hn, ht, habs]
              exact hrest
            | vnone => simp only [buildEfilterRow, hn, ht]; exact hrest
            | vint n0 => simp only [buildEfilterRow, hn, ht]; exact hrest
            | vlist l0 => simp only [buildEfilterRow, hn, ht]; exact hrest
            | vdict d0 => simp only [buildEfilterRow, hn, ht]; exact hrest
        | vnone => simp only [buildEfilterRow, hn]; exact hrest
        | vint n0 => simp only [buildEfilterRow, hn]; exact hrest
        | vlist l0 => simp only [buildEfilterRow, hn]; exact hrest
        | vdict d0 => simp only [buildEfilterRow, hn]; exact hrest
    | vnone => simp only [buildEfilterRow]; exact hrest
    | vstr s0 => simp only [buildEfilterRow]; exact hrest
    | vint n0 => simp only [buildEfilterRow]; exact hrest
    | vlist l0 => simp only [buildEfilterRow]; exact hrest

/-- Claim C10: `add_result` drops an empty row (and appends a non-empty
one), so every entry of the `results` sequence of an `ArtifactResult`
produced by the query source's or the file source's `apply` is a non-empty
mapping; in particular a query match from which every declared column is
absent contributes no row at all rather than an empty row. -/
theorem collect_claim10_no_empty_rows :
    (∀ r : ArtifactResult, r.add_result [] = r) ∧
      (∀ (r : ArtifactResult) (row : RawDict), row ≠ [] →
        r.add_result row = { r with results := r.results ++ [row] }) ∧
      (∀ (query : String) (query_parameters fields : List Value)
          (type_name : String) (session : Session) (artifact_name : String),
        ∀ row ∈ (RekallEFilterArtifacts.apply query query_parameters fields
            type_name session artifact_name).results, row ≠ []) ∧
      (∀ (paths : List Value) (session : Session) (artifact_name : String),
        ∀ row ∈ (FileSourceType.apply paths session artifact_name).results,
          row ≠ []) ∧
      (∀ (fields : List Value) (m : RawDict),
        (∀ (cd : RawDict) (n : String), .vdict cd ∈ fields →
          RawDict.find cd "name" = some (.vstr n) → RawDict.get m n = .vnone) →
        buildEfilterRow fields m = [] ∧
        ∀ r : ArtifactResult, r.add_result (buildEfilterRow fields m) = r) := by
  have hempty : ∀ r : ArtifactResult, r.add_result [] = r := fun r => rfl
  refine ⟨hempty, ?_, ?_, ?_, ?_⟩
  · intro r row hne
    unfold ArtifactResult.add_result
    rw [if_neg]
    simp [List.isEmpty_iff, hne]
  · intro query query_parameters fields type_name session artifact_name row hrow
    exact foldl_add_result_nonempty (buildEfilterRow fields)
      (session.search query query_parameters) _ (by simp) row hrow
  · intro paths session artifact_name row hrow
    have h := foldl_add_result_nonempty fileInfoRow (session.glob paths) _
      (by simp) row hrow
    exact h
  · intro fields m habs
    have hrow := buildEfilterRow_all_absent fields m habs
    exact ⟨hrow, fun r => by rw [hrow]; exact hempty r⟩

/-- Witness for C10 on concrete values: the empty row is dropped, a
non-empty row is appended, neither the query source fed one all-absent
match nor the file source fed one hit ever produces an empty row, and the
all-absent match contributes nothing. -/
theorem collect_claim10_witness :
    ArtifactResult.add_result ⟨"a", "t", [], []⟩ [] = ⟨"a", "t", [], []⟩ ∧
      ArtifactResult.add_result ⟨"a", "t", [], []⟩ [("k", .vint 1)] =
        ⟨"a", "t", [], [[("k", .vint 1)]]⟩ ∧
      ([] : RawDict) ∉ (RekallEFilterArtifacts.apply "q" [] queryColumns "t"
        searchSession "A").results ∧
      ([] : RawDict) ∉ (FileSourceType.apply [.vstr "/etc"] globSession
        "A").results ∧
      buildEfilterRow queryColumns emptyMatch = [] := by
  have habs : ∀ (cd : RawDict) (n : String), Value.vdict cd ∈ queryColumns →
      RawDict.find cd "name" = some (.vstr n) →
      RawDict.get emptyMatch n = .vnone := by
    intro cd n hcd hn
    rcases List.mem_cons.mp hcd with hc | hc
    · obtain rfl : cd = [("name", Value.vstr "c1"), ("type", Value.vstr "int")] := by
        injection hc
      obtain rfl : n = "c1" := by
        have : some (Value.vstr "c1") = some (Value.vstr n) := hn
        injection this with h1
        injection h1 with h2
        exact h2.symm
      rfl
    · simp [queryColumns] at hc
  refine ⟨collect_claim10_no_empty_rows.1 _, ?_, ?_, ?_, ?_⟩
  · exact collect_claim10_no_empty_rows.2.1 ⟨"a", "t", [], []⟩ [("k", .vint 1)]
      (by simp)
  · intro hmem
    exact collect_claim10_no_empty_rows.2.2.1 "q" [] queryColumns "t"
      searchSession "A" [] hmem rfl
  · intro hmem
    exact collect_claim10_no_empty_rows.2.2.2.1 [.vstr "/etc"] globSession "A"
      [] hmem rfl
  · exact (collect_claim10_no_empty_rows.2.2.2.2 queryColumns emptyMatch habs).1

/-! ### Claim C1: deduplicated, terminating traversal -/

theorem seenExt_refl (a : List String) : seenExt a a := ⟨[], by simp⟩

theorem seenExt_trans {a b c : List String} (h1 : seenExt a b) (h2 : seenExt b c) :
    seenExt a c := by
  obtain ⟨e1, rfl⟩ := h1
  obtain ⟨e2, rfl⟩ := h2
  exact ⟨e1 ++ e2, by simp⟩

theorem seenExt_append (a : List String) (e : List String) : seenExt a (a ++ e) :=
  ⟨e, rfl⟩

theorem seenExt_mem {a b : List String} (h : seenExt a b) {x : String}
    (hx : x ∈ a) : x ∈ b := by
  obtain ⟨e, rfl⟩ := h
  exact List.mem_append_left e hx

theorem seenExt_not_mem {a b : List String} (h : seenExt a b) {x : String}
    (hx : x ∉ b) : x ∉ a := fun hxa => hx (seenExt_mem h hxa)

theorem collectGroupNames_seen (recur : List String → String → CollectRes)
    (hrec : ∀ seen n, seenExt seen (recur seen n).2.1) :
    ∀ (names : List Value) (seen : List String),
      seenExt seen (collectGroupNames recur seen names).2.1 := by
  intro names
  induction names with
  | nil => intro seen; exact seenExt_refl seen
  | cons name rest ih =>
    intro seen
    cases name with
    | vstr s =>
      rcases hr : recur seen s with ⟨rows, seen', err⟩
      have h1 : seenExt seen seen' := by
        have := hrec seen s
        rw [hr] at this
        exact this
      cases err with
      | some e => simp only [collectGroupNames, hr]; exact h1
      | none =>
        rcases hrest : collectGroupNames recur seen' rest with ⟨rows2, seen'', err2⟩
        have h2 : seenExt seen' seen'' := by
          have := ih seen'
          rw [hrest] at this
          exact this
        simp only [collectGroupNames, hr, hrest]
        exact seenExt_trans h1 h2
    | vnone => exact seenExt_refl seen
    | vint n0 => exact seenExt_refl seen
    | vlist l0 => exact seenExt_refl seen
    | vdict d0 => exact seenExt_refl seen

theorem applySource_seen (c : ArtifactsCollector)
    (recur : List String → String → CollectRes)
    (hrec : ∀ seen n, seenExt seen (recur seen n).2.1)
    (artifact_name : String) (seen : List String) (s : SourceObj) :
    seenExt seen (applySource c recur artifact_name seen s).2.1 := by
  cases hv : s.variant with
  | efilter q qp fields tname => simp only [applySource, hv]; exact seenExt_refl seen
  | file paths sep => simp only [applySource, hv]; exact seenExt_refl seen
  | group names =>
    simp only [applySource, hv]
    exact collectGroupNames_seen recur hrec names seen

theorem collectSources_seen (c : ArtifactsCollector)
    (recur : List String → String → CollectRes)
    (hrec : ∀ seen n, seenExt seen (recur seen n).2.1) (artifact_name : String) :
    ∀ (sources : List SourceObj) (seen : List String),
      seenExt seen (collectSources c recur artifact_name seen sources).2.1 := by
  intro sources
  induction sources with
  | nil => intro seen; exact seenExt_refl seen
  | cons s rest ih =>
    intro seen
    cases hm : strIn c.supported_os s.supported_os with
    | false => simp only [collectSources, hm]; exact seenExt_refl seen
    | true =>
      rcases ha : applySource c recur artifact_name seen s with ⟨rows, seen', err⟩
      have h1 : seenExt seen seen' := by
        have := applySource_seen c recur hrec artifact_name seen s
        rw [ha] at this
        exact this
      cases err with
      | some e => simp only [collectSources, hm, ha]; exact h1
      | none =>
        rcases hrest : collectSources c recur artifact_name seen' rest with
          ⟨rows2, seen'', err2⟩
        have h2 : seenExt seen' seen'' := by
          have := ih seen'
          rw [hrest] at this
          exact this
        simp only [collectSources, hm, ha, hrest]
        exact seenExt_trans h1 h2

theorem collect_artifact_seen (c : ArtifactsCollector) :
    ∀ (fuel : Nat) (seen : List String) (name : String),
      seenExt seen (ArtifactsCollector.collect_artifact c fuel seen name).2.1 := by
  intro fuel
  induction fuel with
  | zero => intro seen name; exact seenExt_refl seen
  | succ f ih =>
    intro seen name
    by_cases hmem : name ∈ seen
    · simp only [ArtifactsCollector.collect_artifact, if_pos hmem]
      exact seenExt_refl seen
    · cases hdef : ArtifactProfile.GetDefinitionByName c.artifact_profile name with
      | none =>
        simp only [ArtifactsCollector.collect_artifact, if_neg hmem, hdef]
        exact seenExt_append seen [name]
      | some defn =>
        by_cases hos : c.supported_os ∈ defn.supported_os
        · rcases hcs : collectSources c (ArtifactsCollector.collect_artifact c f)
              defn.name (seen ++ [name]) defn.sources with ⟨rows, seen', err⟩
          simp only [ArtifactsCollector.collect_artifact, if_neg hmem, hdef,
            if_pos hos, hcs]
          have h2 : seenExt (seen ++ [name]) seen' := by
            have := collectSources_seen c (ArtifactsCollector.collect_artifact c f)
              (fun s n => ih s n) defn.name defn.sources (seen ++ [name])
            rw [hcs] at this
            exact this
          exact seenExt_trans (seenExt_append seen [name]) h2
        · simp only [ArtifactsCollector.collect_artifact, if_neg hmem, hdef,
            if_neg hos]
          exact seenExt_append seen [name]

theorem unseenCount_le_of_ext (c : ArtifactsCollector) {a b : List String}
    (h : seenExt a b) : unseenCount c b ≤ unseenCount c a := by
  obtain ⟨ext, rfl⟩ := h
  unfold unseenCount
  apply List.countP_mono_left
  intro k _ hk
  simp only [Bool.not_eq_true', decide_eq_false_iff_not] at hk ⊢
  exact fun hka => hk (List.mem_append_left ext hka)

theorem countP_lt_of_witness {α : Type} (p q : α → Bool) :
    ∀ l : List α, (∀ x ∈ l, p x = true → q x = true) →
      ∀ a ∈ l, q a = true → p a = false → l.countP p < l.countP q := by
  intro l
  induction l with
  | nil => intro _ a ha; simp at ha
  | cons h t ih =>
    intro hmono a ha hqa hpa
    have hmono' : ∀ x ∈ t, p x = true → q x = true :=
      fun x hx => hmono x (List.mem_cons_of_mem h hx)
    have hle : t.countP p ≤ t.countP q := List.countP_mono_left hmono'
    rcases List.mem_cons.mp ha with rfl | hmem
    · rw [List.countP_cons, List.countP_cons, hqa, hpa]
      simp
      omega
    · have hlt := ih hmono' a hmem hqa hpa
      rw [List.countP_cons, List.countP_cons]
      have : (if p h = true then 1 else 0) ≤ (if q h = true then 1 else 0) := by
        by_cases hp : p h = true
        · rw [if_pos hp, if_pos (hmono h (List.mem_cons_self h t) hp)]
        · rw [if_neg hp]
          omega
      omega

theorem unseenCount_lt (c : ArtifactsCollector) (seen : List String) (k : String)
    (hk : k ∈ c.artifact_profile.definitions_by_name.map Prod.fst)
    (hns : k ∉ seen) : unseenCount c (seen ++ [k]) < unseenCount c seen := by
  unfold unseenCount
  apply countP_lt_of_witness _ _ _ ?mono k hk ?qk ?pk
  case mono =>
    intro x _ hx
    simp only [Bool.not_eq_true', decide_eq_false_iff_not] at hx ⊢
    exact fun hxs => hx (List.mem_append_left [k] hxs)
  case qk => simp [hns]
  case pk => simp

theorem GetDefinitionByName_mem (p : ArtifactProfile) (name : String)
    (defn : ArtifactDefinition)
    (h : ArtifactProfile.GetDefinitionByName p name = some defn) :
    name ∈ p.definitions_by_name.map Prod.fst ∧
      (name, defn) ∈ p.definitions_by_name := by
  have hm := lookupKey_mem _ _ _ h
  exact ⟨List.mem_map.mpr ⟨(name, defn), hm, rfl⟩, hm⟩

theorem collectGroupNames_congr (recur₁ recur₂ : List String → String → CollectRes)
    (base : List String)
    (hrec : ∀ seen n, seenExt seen (recur₁ seen n).2.1)
    (heq : ∀ seen n, seenExt base seen → recur₁ seen n = recur₂ seen n) :
    ∀ (names : List Value) (seen : List String), seenExt base seen →
      collectGroupNames recur₁ seen names =
        collectGroupNames recur₂ seen names := by
  intro names
  induction names with
  | nil => intro seen _; rfl
  | cons name rest ih =>
    intro seen hb
    cases name with
    | vstr s =>
      have he := heq seen s hb
      rcases hr : recur₁ seen s with ⟨rows, seen', err⟩
      have hr2 : recur₂ seen s = (rows, seen', err) := by rw [← he, hr]
      have hext : seenExt seen seen' := by
        have := hrec seen s
        rw [hr] at this
        exact this
      cases err with
      | some e => simp only [collectGroupNames, hr, hr2]
      | none =>
        simp only [collectGroupNames, hr, hr2]
        rw [ih seen' (seenExt_trans hb hext)]
    | vnone => rfl
    | vint n0 => rfl
    | vlist l0 => rfl
    | vdict d0 => rfl

theorem applySource_congr (c : ArtifactsCollector)
    (recur₁ recur₂ : List String → String → CollectRes) (artifact_name : String)
    (base : List String)
    (hrec : ∀ seen n, seenExt seen (recur₁ seen n).2.1)
    (heq : ∀ seen n, seenExt base seen → recur₁ seen n = recur₂ seen n)
    (seen : List String) (hb : seenExt base seen) (s : SourceObj) :
    applySource c recur₁ artifact_name seen s =
      applySource c recur₂ artifact_name seen s := by
  cases hv : s.variant with
  | efilter q qp fields tname => simp only [applySource, hv]
  | file paths sep => simp only [applySource, hv]
  | group names =>
    simp only [applySource, hv]
    exact collectGroupNames_congr recur₁ recur₂ base hrec heq names seen hb

theorem collectSources_congr (c : ArtifactsCollector)
    (recur₁ recur₂ : List String → String → CollectRes) (artifact_name : String)
    (base : List String)
    (hrec : ∀ seen n, seenExt seen (recur₁ seen n).2.1)
    (heq : ∀ seen n, seenExt base seen → recur₁ seen n = recur₂ seen n) :
    ∀ (sources : List SourceObj) (seen : List String), seenExt base seen →
      collectSources c recur₁ artifact_name seen sources =
        collectSources c recur₂ artifact_name seen sources := by
  intro sources
  induction sources with
  | nil => intro seen _; rfl
  | cons s rest ih =>
    intro seen hb
    cases hm : strIn c.supported_os s.supported_os with
    | false => simp [collectSources, hm]
    | true =>
      have he := applySource_congr c recur₁ recur₂ artifact_name base hrec heq
        seen hb s
      rcases ha : applySource c recur₁ artifact_name seen s with ⟨rows, seen', err⟩
      have ha2 : applySource c recur₂ artifact_name seen s = (rows, seen', err) := by
        rw [← he, ha]
      have hext : seenExt seen seen' := by
        have := applySource_seen c recur₁ hrec artifact_name seen s
        rw [ha] at this
        exact this
      cases err with
      | some e => simp only [collectSources, hm, ha, ha2]
      | none =>
        simp only [collectSources, hm, ha, ha2]
        rw [ih seen' (seenExt_trans hb hext)]

theorem collect_artifact_stable (c : ArtifactsCollector) :
    ∀ (fuel : Nat) (seen : List String) (name : String),
      unseenCount c seen < fuel →
      ArtifactsCollector.collect_artifact c fuel seen name =
        ArtifactsCollector.collect_artifact c (fuel + 1) seen name := by
  intro fuel
  induction fuel with
  | zero => intro seen name h; exact absurd h (Nat.not_lt_zero _)
  | succ f ih =>
    intro seen name hcnt
    by_cases hmem : name ∈ seen
    · simp only [ArtifactsCollector.collect_artifact, if_pos hmem]
    · cases hdef : ArtifactProfile.GetDefinitionByName c.artifact_profile name with
      | none => simp only [ArtifactsCollector.collect_artifact, if_neg hmem, hdef]
      | some defn =>
        by_cases hos : c.supported_os ∈ defn.supported_os
        · have hkey := (GetDefinitionByName_mem _ _ _ hdef).1
          have hdec := unseenCount_lt c seen name hkey hmem
          have hcs := collectSources_congr c
            (ArtifactsCollector.collect_artifact c f)
            (ArtifactsCollector.collect_artifact c (f + 1)) defn.name
            (seen ++ [name]) (fun s n => collect_artifact_seen c f s n)
            (fun seen' n hext => by
              apply ih
              have h1 : unseenCount c seen' ≤ unseenCount c (seen ++ [name]) :=
                unseenCount_le_of_ext c hext
              omega)
            defn.sources (seen ++ [name]) (seenExt_refl _)
          have hsucc : ∀ (g : Nat) (sn : List String) (nm : String),
              ArtifactsCollector.collect_artifact c (g + 1) sn nm =
                if nm ∈ sn then ([], sn, none)
                else
                  match ArtifactProfile.GetDefinitionByName c.artifact_profile nm with
                  | none => ([], sn ++ [nm], some (.notFound (.vstr nm)))
                  | some d =>
                    if c.supported_os ∈ d.supported_os then
                      match collectSources c
                          (ArtifactsCollector.collect_artifact c g) d.name
                          (sn ++ [nm]) d.sources with
                      | (rows, seen', err) =>
                        (.divider ("Artifact: " ++ d.name) :: rows, seen', err)
                    else ([], sn ++ [nm], none) := fun g sn nm => rfl
          rw [hsucc f seen name, hsucc (f + 1) seen name]
          simp only [if_neg hmem, hdef, if_pos hos]
          rw [hcs]
        · simp only [ArtifactsCollector.collect_artifact, if_neg hmem, hdef,
            if_neg hos]

theorem collect_artifact_stable_ge (c : ArtifactsCollector) (fuel : Nat)
    (seen : List String) (name : String) (h : unseenCount c seen < fuel) :
    ∀ k : Nat, ArtifactsCollector.collect_artifact c (fuel + k) seen name =
      ArtifactsCollector.collect_artifact c fuel seen name := by
  intro k
  induction k with
  | zero => rfl
  | succ j ihj =>
    have hj : unseenCount c seen < fuel + j := by omega
    calc ArtifactsCollector.collect_artifact c (fuel + (j + 1)) seen name
        = ArtifactsCollector.collect_artifact c ((fuel + j) + 1) seen name := rfl
      _ = ArtifactsCollector.collect_artifact c (fuel + j) seen name :=
          (collect_artifact_stable c (fuel + j) seen name hj).symm
      _ = ArtifactsCollector.collect_artifact c fuel seen name := ihj

theorem collect_artifact_eq_fuels (c : ArtifactsCollector) (f₁ f₂ : Nat)
    (seen : List String) (name : String) (h1 : unseenCount c seen < f₁)
    (h2 : unseenCount c seen < f₂) :
    ArtifactsCollector.collect_artifact c f₁ seen name =
      ArtifactsCollector.collect_artifact c f₂ seen name := by
  rcases Nat.le_total f₁ f₂ with h | h
  · obtain ⟨k, rfl⟩ := Nat.le.dest h
    exact (collect_artifact_stable_ge c f₁ seen name h1 k).symm
  · obtain ⟨k, rfl⟩ := Nat.le.dest h
    exact collect_artifact_stable_ge c f₂ seen name h2 k

theorem dividerStrings_append (r1 r2 : List Row) :
    dividerStrings (r1 ++ r2) = dividerStrings r1 ++ dividerStrings r2 :=
  List.filterMap_append r1 r2 _

theorem DividerInv_no_dividers (rows : List Row) (h : dividerStrings rows = [])
    (seen seen' : List String) (e : Option CollectError) :
    DividerInv seen (rows, seen', e) := by
  constructor
  · rw [h]; exact List.nodup_nil
  · intro s hs
    rw [h] at hs
    simp at hs

theorem DividerInv_empty (seen seen' : List String) (e : Option CollectError) :
    DividerInv seen (([] : List Row), seen', e) :=
  DividerInv_no_dividers [] rfl seen seen' e

theorem DividerInv_append {seen seen1 seen2 : List String} {rows1 rows2 : List Row}
    {e1 e2 : Option CollectError}
    (h1 : DividerInv seen (rows1, seen1, e1))
    (h2 : DividerInv seen1 (rows2, seen2, e2))
    (hx1 : seenExt seen seen1) (hx2 : seenExt seen1 seen2)
    (e : Option CollectError) :
    DividerInv seen (rows1 ++ rows2, seen2, e) := by
  obtain ⟨hnd1, hf1⟩ := h1
  obtain ⟨hnd2, hf2⟩ := h2
  constructor
  · rw [dividerStrings_append]
    refine List.Nodup.append hnd1 hnd2 ?_
    intro s hs1 hs2
    obtain ⟨n1, rfl, hn1not, hn1in⟩ := hf1 s hs1
    obtain ⟨n2, heq, hn2not, -⟩ := hf2 _ hs2
    obtain rfl : n1 = n2 := string_append_cancel heq
    exact hn2not hn1in
  · intro s hs
    rw [dividerStrings_append, List.mem_append] at hs
    rcases hs with hs | hs
    · obtain ⟨n, rfl, hnot, hin⟩ := hf1 s hs
      exact ⟨n, rfl, hnot, seenExt_mem hx2 hin⟩
    · obtain ⟨n, rfl, hnot, hin⟩ := hf2 s hs
      exact ⟨n, rfl, seenExt_not_mem hx1 hnot, hin⟩

theorem collectGroupNames_dinv (recur : List String → String → CollectRes)
    (hrecExt : ∀ seen n, seenExt seen (recur seen n).2.1)
    (hrecInv : ∀ seen n, DividerInv seen (recur seen n)) :
    ∀ (names : List Value) (seen : List String),
      DividerInv seen (collectGroupNames recur seen names) := by
  intro names
  induction names with
  | nil => intro seen; exact DividerInv_empty seen seen none
  | cons name rest ih =>
    intro seen
    cases name with
    | vstr s =>
      rcases hr : recur seen s with ⟨rows, seen', err⟩
      have hinv1 : DividerInv seen (rows, seen', err) := by
        have := hrecInv seen s
        rw [hr] at this
        exact this
      have hext1 : seenExt seen seen' := by
        have := hrecExt seen s
        rw [hr] at this
        exact this
      cases err with
      | some e =>
        simp only [collectGroupNames, hr]
        exact hinv1
      | none =>
        rcases hrest : collectGroupNames recur seen' rest with ⟨rows2, seen'', err2⟩
        have hinv2 : DividerInv seen' (rows2, seen'', err2) := by
          have := ih seen'
          rw [hrest] at this
          exact this
        have hext2 : seenExt seen' seen'' := by
          have := collectGroupNames_seen recur hrecExt rest seen'
          rw [hrest] at this
          exact this
        simp only [collectGroupNames, hr, hrest]
        exact DividerInv_append hinv1 hinv2 hext1 hext2 err2
    | vnone => exact DividerInv_empty seen seen _
    | vint n0 => exact DividerInv_empty seen seen _
    | vlist l0 => exact DividerInv_empty seen seen _
    | vdict d0 => exact DividerInv_empty seen seen _

theorem applySource_dinv (c : ArtifactsCollector)
    (recur : List String → String → CollectRes)
    (hrecExt : ∀ seen n, seenExt seen (recur seen n).2.1)
    (hrecInv : ∀ seen n, DividerInv seen (recur seen n))
    (artifact_name : String) (seen : List String) (s : SourceObj) :
    DividerInv seen (applySource c recur artifact_name seen s) := by
  cases hv : s.variant with
  | efilter q qp fields tname =>
    simp only [applySource, hv]
    refine DividerInv_no_dividers _ ?_ _ _ _
    rfl
  | file paths sep =>
    simp only [applySource, hv]
    refine DividerInv_no_dividers _ ?_ _ _ _
    rfl
  | group names =>
    simp only [applySource, hv]
    exact collectGroupNames_dinv recur hrecExt hrecInv names seen

theorem collectSources_dinv (c : ArtifactsCollector)
    (recur : List String → String → CollectRes)
    (hrecExt : ∀ seen n, seenExt seen (recur seen n).2.1)
    (hrecInv : ∀ seen n, DividerInv seen (recur seen n)) (artifact_name : String) :
    ∀ (sources : List SourceObj) (seen : List String),
      DividerInv seen (collectSources c recur artifact_name seen sources) := by
  intro sources
  induction sources with
  | nil => intro seen; exact DividerInv_empty seen seen none
  | cons s rest ih =>
    intro seen
    cases hm : strIn c.supported_os s.supported_os with
    | false =>
      simp only [collectSources, hm]
      exact DividerInv_empty seen seen none
    | true =>
      rcases ha : applySource c recur artifact_name seen s with ⟨rows, seen', err⟩
      have hinv1 : DividerInv seen (rows, seen', err) := by
        have := applySource_dinv c recur hrecExt hrecInv artifact_name seen s
        rw [ha] at this
        exact this
      have hext1 : seenExt seen seen' := by
        have := applySource_seen c recur hrecExt artifact_name seen s
        rw [ha] at this
        exact this
      cases err with
      | some e =>
        simp only [collectSources, hm, ha]
        exact hinv1
      | none =>
        rcases hrest : collectSources c recur artifact_name seen' rest with
          ⟨rows2, seen'', err2⟩
        have hinv2 : DividerInv seen' (rows2, seen'', err2) := by
          have := ih seen'
          rw [hrest] at this
          exact this
        have hext2 : seenExt seen' seen'' := by
          have := collectSources_seen c recur hrecExt artifact_name rest seen'
          rw [hrest] at this
          exact this
        simp only [collectSources, hm, ha, hrest]
        exact DividerInv_append hinv1 hinv2 hext1 hext2 err2

theorem collect_artifact_dinv (c : ArtifactsCollector)
    (hwf : ∀ p ∈ c.artifact_profile.definitions_by_name, (p.2).name = p.1) :
    ∀ (fuel : Nat) (seen : List String) (name : String),
      DividerInv seen (ArtifactsCollector.collect_artifact c fuel seen name) := by
  intro fuel
  induction fuel with
  | zero => intro seen name; exact DividerInv_empty seen seen none
  | succ f ih =>
    intro seen name
    by_cases hmem : name ∈ seen
    · simp only [ArtifactsCollector.collect_artifact, if_pos hmem]
      exact DividerInv_empty seen seen none
    · cases hdef : ArtifactProfile.GetDefinitionByName c.artifact_profile name with
      | none =>
        simp only [ArtifactsCollector.collect_artifact, if_neg hmem, hdef]
        exact DividerInv_empty seen _ _
      | some defn =>
        by_cases hos : c.supported_os ∈ defn.supported_os
        · rcases hcs : collectSources c (ArtifactsCollector.collect_artifact c f)
              defn.name (seen ++ [name]) defn.sources with ⟨rows, seen', err⟩
          have hinv : DividerInv (seen ++ [name]) (rows, seen', err) := by
            have := collectSources_dinv c
              (ArtifactsCollector.collect_artifact c f)
              (fun sn n => collect_artifact_seen c f sn n) (fun sn n => ih sn n)
              defn.name defn.sources (seen ++ [name])
            rw [hcs] at this
            exact this
          have hext : seenExt (seen ++ [name]) seen' := by
            have := collectSources_seen c (ArtifactsCollector.collect_artifact c f)
              (fun sn n => collect_artifact_seen c f sn n) defn.name defn.sources
              (seen ++ [name])
            rw [hcs] at this
            exact this
          have hname : defn.name = name :=
            hwf (name, defn) (GetDefinitionByName_mem _ _ _ hdef).2
          simp only [ArtifactsCollector.collect_artifact, if_neg hmem, hdef,
            if_pos hos, hcs]
          have hds : dividerStrings (Row.divider ("Artifact: " ++ defn.name) :: rows) =
              ("Artifact: " ++ defn.name) :: dividerStrings rows := rfl
          constructor
          · rw [hds]
            refine List.nodup_cons.mpr ⟨?_, hinv.1⟩
            intro hmem'
            obtain ⟨n2, heq, hn2not, -⟩ := hinv.2 _ hmem'
            obtain rfl : defn.name = n2 := string_append_cancel heq
            rw [hname] at hn2not
            exact hn2not (List.mem_append_right seen (List.mem_singleton.mpr rfl))
          · intro s hs
            rw [hds] at hs
            rcases List.mem_cons.mp hs with rfl | hs'
            · refine ⟨defn.name, rfl, ?_, ?_⟩
              · rw [hname]; exact hmem
              · rw [hname]
                exact seenExt_mem hext
                  (List.mem_append_right seen (List.mem_singleton.mpr rfl))
            · obtain ⟨n, rfl, hnot, hin⟩ := hinv.2 s hs'
              refine ⟨n, rfl, ?_, hin⟩
              exact fun hn => hnot (List.mem_append_left [name] hn)
        · simp only [ArtifactsCollector.collect_artifact, if_neg hmem, hdef,
            if_neg hos]
          exact DividerInv_empty seen _ _

/-- Claim C1: within one run no artifact name is expanded twice.  The
visited-set guard makes any call for an already-visited name return the
empty sequence with the state unchanged; `collect` starts every run from the
empty visited set; consequently the divider rows of a whole `collect` run —
one per expanded artifact block, including artifacts reached through group
sources and direct self-reference cycles — carry pairwise-distinct names (no
duplicated artifact blocks); and the run is insensitive to the recursion
budget once it exceeds the number of registered names, which is the
termination of group cycles in this embedding. -/
theorem collect_claim1_dedup (c : ArtifactsCollector) :
    (∀ (fuel : Nat) (seen : List String) (name : String), name ∈ seen →
        ArtifactsCollector.collect_artifact c fuel seen name = ([], seen, none)) ∧
      (∀ (fuel : Nat) (names : List String),
        ArtifactsCollector.collect c fuel names =
          collectGroupNames (ArtifactsCollector.collect_artifact c fuel) []
            (names.map .vstr)) ∧
      ((∀ p ∈ c.artifact_profile.definitions_by_name, (p.2).name = p.1) →
        ∀ (fuel : Nat) (names : List String),
          (dividerStrings (ArtifactsCollector.collect c fuel names).1).Nodup) ∧
      (∀ (names : List String) (f₁ f₂ : Nat), unseenCount c [] < f₁ →
        unseenCount c [] < f₂ →
        ArtifactsCollector.collect c f₁ names =
          ArtifactsCollector.collect c f₂ names) := by
  refine ⟨?_, ?_, ?_, ?_⟩
  · intro fuel seen name hmem
    cases fuel with
    | zero => rfl
    | succ f => simp only [ArtifactsCollector.collect_artifact, if_pos hmem]
  · intro fuel names
    rfl
  · intro hwf fuel names
    exact (collectGroupNames_dinv (ArtifactsCollector.collect_artifact c fuel)
      (collect_artifact_seen c fuel) (collect_artifact_dinv c hwf fuel)
      (names.map .vstr) []).1
  · intro names f₁ f₂ h1 h2
    unfold ArtifactsCollector.collect
    refine collectGroupNames_congr (ArtifactsCollector.collect_artifact c f₁)
      (ArtifactsCollector.collect_artifact c f₂) []
      (collect_artifact_seen c f₁) ?_ (names.map .vstr) [] (seenExt_refl [])
    intro seen n hext
    have hle := unseenCount_le_of_ext c hext
    exact collect_artifact_eq_fuels c f₁ f₂ seen n (by omega) (by omega)

/-- Witness for C1 on the demo collector, whose artifact `G` groups `X` and
`G` itself (a direct cycle): re-entry on a visited name yields nothing, the
divider names of a run are distinct, and the run is unchanged when the
recursion budget grows past the number of registered names. -/
theorem collect_claim1_witness :
    ("G" ∈ ["G"]) ∧
      ArtifactsCollector.collect_artifact demoCollector 5 ["G"] "G" =
        ([], ["G"], none) ∧
      (dividerStrings (ArtifactsCollector.collect demoCollector 5 ["G"]).1).Nodup ∧
      unseenCount demoCollector [] < 4 ∧ unseenCount demoCollector [] < 9 ∧
      ArtifactsCollector.collect demoCollector 4 ["G"] =
        ArtifactsCollector.collect demoCollector 9 ["G"] := by
  refine ⟨by decide, ?_, ?_, by decide, by decide, ?_⟩
  · exact (collect_claim1_dedup demoCollector).1 5 ["G"] "G" (by decide)
  · exact (collect_claim1_dedup demoCollector).2.2.1 (by decide) 5 ["G"]
  · exact (collect_claim1_dedup demoCollector).2.2.2 ["G"] 4 9 (by decide)
      (by decide)
